import Mathlib

/-!
Shallow embedding of the LobsterShell request-governance core.

The definitions below are translated from the Python sources:
  soul/soul_architecture/audit_chain.py
  soul/soul_architecture/layered_security.py
  soul/soul_architecture/dynamic_mode_engine.py
  SoulArchitectureSummary/soul_architecture/zero_hallucination_overwriter.py
  shell/core/tool_runtime/executor.py and shell/core/interfaces/tool_interface.py

Modelling conventions:
* Python `str` is modelled as Lean `String` / `List Char`; `str.upper`,
  `str.lower`, `str.strip`, `str.replace`, `str.startswith` and the `in`
  substring test are modelled by the executable helpers in this section
  (ASCII case mapping, which covers the ASCII keywords the code tests for).
* Python floats are modelled as rationals; `round(x, 2)` is modelled with
  round-half-to-even on hundredths, which is Python's documented rounding.
* External collaborators (the `re` regex engine inside SensitivityAnalyzer,
  `hashlib.sha256` + `json.dumps`, Python's builtin `hash`, database query
  runners, plugin tool implementations, custom decision hooks) are passed in
  as function parameters, so every theorem quantifies over them.
* Exceptions are modelled with `Except String`; a raising Python callable
  becomes a function into `Except String _`.
-/

/-! ## String helpers (models of the Python str operations used by the code) -/

/-- Model of Python `str.upper` on one character (ASCII range, which covers
the SQL keywords the code compares against). -/
def asciiUpper (c : Char) : Char :=
  if 'a' ≤ c ∧ c ≤ 'z' then Char.ofNat (c.toNat - 32) else c

/-- Model of Python `str.lower` on one character (ASCII range). -/
def asciiLower (c : Char) : Char :=
  if 'A' ≤ c ∧ c ≤ 'Z' then Char.ofNat (c.toNat + 32) else c

/-- Model of Python `str.upper`. -/
def pyUpper (l : List Char) : List Char := l.map asciiUpper

/-- Model of Python `str.lower`. -/
def pyLower (l : List Char) : List Char := l.map asciiLower

/-- Whitespace recognised by Python `str.strip` (ASCII part). -/
def isPySpace (c : Char) : Bool :=
  c = ' ' || c = '\t' || c = '\n' || c = '\r' || c = Char.ofNat 11 || c = Char.ofNat 12

/-- Model of Python `str.strip`. -/
def pyStrip (l : List Char) : List Char :=
  ((l.dropWhile isPySpace).reverse.dropWhile isPySpace).reverse

/-- Model of Python `str.startswith`: does `l` start with `pre`? -/
def listStartsWith : List Char → List Char → Bool
  | [], _ => true
  | _ :: _, [] => false
  | p :: ps, c :: cs => p = c && listStartsWith ps cs

/-- Model of the Python `in` substring test: does `hay` contain `needle`? -/
def containsSub (needle : List Char) : List Char → Bool
  | [] => needle.isEmpty
  | c :: cs => listStartsWith needle (c :: cs) || containsSub needle cs

/-- Fueled worker for `pyReplace` (the fuel makes the recursion structural;
`pyReplace` supplies enough fuel for the whole input). -/
def pyReplaceF : Nat → List Char → List Char → List Char → List Char
  | 0, _, _, l => l
  | _ + 1, _, _, [] => []
  | fuel + 1, old, new, c :: cs =>
    if old ≠ [] ∧ listStartsWith old (c :: cs) then
      new ++ pyReplaceF fuel old new ((c :: cs).drop old.length)
    else
      c :: pyReplaceF fuel old new cs

/-- Model of Python `str.replace` (replace every non-overlapping occurrence,
left to right).  The code only calls it with non-empty `old` (placeholder
texts always contain their delimiters). -/
def pyReplace (l old new : List Char) : List Char :=
  pyReplaceF l.length old new l

theorem listStartsWith_iff (p l : List Char) :
    listStartsWith p l = true ↔ p <+: l := by
  induction p generalizing l with
  | nil => simp [listStartsWith]
  | cons a as ih =>
    cases l with
    | nil => simp [listStartsWith]
    | cons b bs =>
      simp only [listStartsWith, Bool.and_eq_true, decide_eq_true_eq, ih,
        List.cons_prefix_cons]

theorem containsSub_iff (n h : List Char) :
    containsSub n h = true ↔ n <:+: h := by
  induction h with
  | nil =>
    simp only [containsSub, List.isEmpty_iff, List.infix_nil]
  | cons c cs ih =>
    simp only [containsSub, Bool.or_eq_true, listStartsWith_iff, ih,
      List.infix_cons_iff]

theorem IsInfix.containsSub_map {n h : List Char} (f : Char → Char)
    (hin : n <:+: h) : containsSub (n.map f) (h.map f) = true := by
  rw [containsSub_iff]
  obtain ⟨s, t, rfl⟩ := hin
  exact ⟨s.map f, t.map f, by simp⟩

/-! ## Rational helpers (models of Python float rounding) -/

/-- Round to the nearest integer, ties to even (Python's rounding mode). -/
def rneInt (q : ℚ) : ℤ :=
  if q - ⌊q⌋ < 1 / 2 then ⌊q⌋
  else if q - ⌊q⌋ > 1 / 2 then ⌊q⌋ + 1
  else if ⌊q⌋ % 2 = 0 then ⌊q⌋ else ⌊q⌋ + 1

/-- Model of Python `round(x, 2)`. -/
def pyRound2 (x : ℚ) : ℚ := (rneInt (x * 100) : ℚ) / 100

theorem rneInt_nonneg {q : ℚ} (h : 0 ≤ q) : 0 ≤ rneInt q := by
  have hf : (0 : ℤ) ≤ ⌊q⌋ := Int.floor_nonneg.mpr h
  unfold rneInt
  split_ifs <;> omega

theorem rneInt_le {q : ℚ} {n : ℤ} (h : q ≤ n) : rneInt q ≤ n := by
  have hf : ⌊q⌋ ≤ n := by simpa using Int.floor_le_floor h
  unfold rneInt
  split_ifs with h1 h2 h3
  · omega
  · rcases eq_or_lt_of_le hf with heq | hlt
    · exfalso
      rw [heq] at h2
      have hq : q - (n : ℚ) ≤ 0 := sub_nonpos.mpr h
      linarith
    · omega
  · omega
  · rcases eq_or_lt_of_le hf with heq | hlt
    · exfalso
      rw [heq] at h1
      have hq : q - (n : ℚ) ≤ 0 := sub_nonpos.mpr h
      linarith
    · omega

theorem pyRound2_nonneg {x : ℚ} (h : 0 ≤ x) : 0 ≤ pyRound2 x := by
  unfold pyRound2
  have := rneInt_nonneg (q := x * 100) (by positivity)
  positivity

theorem pyRound2_le_one {x : ℚ} (h : x ≤ 1) : pyRound2 x ≤ 1 := by
  unfold pyRound2
  have h100 : x * 100 ≤ ((100 : ℤ) : ℚ) := by push_cast; linarith
  have := rneInt_le h100
  rw [div_le_one (by norm_num)]
  exact_mod_cast this

/-! ## Audit chain (audit_chain.py)

The SHA-256-over-canonical-JSON hash is modelled by an arbitrary function
`H : HashInput → String` over the exact field tuple that
`AuditEntry.compute_hash` serialises; timestamps are modelled as naturals
(`datetime.isoformat` is injective on datetimes).  The session/user secondary
indices and the asynchronous persistence hook kept by `AuditChain` do not
feed into `add`'s hash linkage or `verify_chain`, so the chain state is
modelled by the entry list and the running last hash. -/

inductive AuditLevel
  | debug | info | warning | error | critical
deriving DecidableEq, Repr

inductive AuditEventType
  | mode_decision | security_check | data_overwrite | execution_start
  | execution_end | user_confirmation | policy_violation
deriving DecidableEq, Repr

/-- The canonical tuple that `AuditEntry.compute_hash` hashes
(audit_chain.py lines 70-84). -/
structure HashInput where
  entry_id : String
  timestamp : Nat
  event_type : AuditEventType
  action : String
  session_id : String
  request_id : String
  previous_hash : Option String
deriving DecidableEq, Repr

structure AuditEntry where
  entry_id : String
  timestamp : Nat
  level : AuditLevel
  event_type : AuditEventType
  session_id : String
  request_id : String
  action : String
  description : String
  user_id : Option String := none
  tenant_id : Option String := none
  details : List (String × String) := []
  decision : Option String := none
  reason : Option String := none
  confidence : Option ℚ := none
  success : Bool := true
  error_message : Option String := none
  duration_ms : Option ℚ := none
  entry_hash : Option String := none
  previous_hash : Option String := none
deriving DecidableEq, Repr

namespace AuditEntry

/-- The fields `compute_hash` feeds to the hash, in source order. -/
def hashFields (e : AuditEntry) : HashInput :=
  ⟨e.entry_id, e.timestamp, e.event_type, e.action, e.session_id,
    e.request_id, e.previous_hash⟩

/-- `AuditEntry.compute_hash`, with the SHA-256-over-JSON step abstracted
into the parameter `H`. -/
def compute_hash (H : HashInput → String) (e : AuditEntry) : String :=
  H e.hashFields

/-- `AuditEntry.finalize`: set `previous_hash`, then store the hash computed
over the updated entry. -/
def finalize (H : HashInput → String) (e : AuditEntry)
    (previous_hash : Option String) : AuditEntry :=
  let e1 := { e with previous_hash := previous_hash }
  { e1 with entry_hash := some (e1.compute_hash H) }

end AuditEntry

structure AuditChainStatus where
  total_entries : Nat
  valid : Bool
  broken_at : Option String := none
  first_timestamp : Option Nat := none
  last_timestamp : Option Nat := none
deriving DecidableEq, Repr

structure AuditChain where
  chain_id : String := "default"
  entries : List AuditEntry := []
  last_hash : Option String := none
deriving Repr

namespace AuditChain

/-- `AuditChain.add`: finalize the entry against the running last hash,
append it, and advance the last hash. -/
def add (H : HashInput → String) (c : AuditChain) (entry : AuditEntry) :
    AuditChain :=
  let e := entry.finalize H c.last_hash
  { c with entries := c.entries ++ [e], last_hash := e.entry_hash }

/-- A chain built by appending the given entries to a fresh chain. -/
def build (H : HashInput → String) (pres : List AuditEntry) : AuditChain :=
  pres.foldl (add H) {}

/-- The per-entry walk of `verify_chain` (audit_chain.py lines 183-207):
first the `previous_hash` link check, then the recomputed-hash check;
returns the `entry_id` of the first divergent entry. -/
def verifyLoop (H : HashInput → String) :
    Option String → List AuditEntry → Option String
  | _, [] => none
  | previous_hash, e :: rest =>
    if e.previous_hash ≠ previous_hash then some e.entry_id
    else if e.entry_hash ≠ some (e.compute_hash H) then some e.entry_id
    else verifyLoop H e.entry_hash rest

/-- `AuditChain.verify_chain`. -/
def verify_chain (H : HashInput → String) (c : AuditChain) :
    AuditChainStatus :=
  match c.entries with
  | [] => { total_entries := 0, valid := true }
  | e0 :: rest =>
    match verifyLoop H none (e0 :: rest) with
    | some bad =>
        { total_entries := (e0 :: rest).length, valid := false,
          broken_at := some bad,
          first_timestamp := some e0.timestamp,
          last_timestamp := some (((e0 :: rest).getLast (by simp)).timestamp) }
    | none =>
        { total_entries := (e0 :: rest).length, valid := true,
          first_timestamp := some e0.timestamp,
          last_timestamp := some (((e0 :: rest).getLast (by simp)).timestamp) }

/-- The hash that the verify walk carries after traversing `l` starting
from `prev` (the stored hash of the last entry, or `prev` if `l` is empty). -/
def endHash (prev : Option String) (l : List AuditEntry) : Option String :=
  l.foldl (fun _ e => e.entry_hash) prev

theorem endHash_append (prev : Option String) (l₁ l₂ : List AuditEntry) :
    endHash prev (l₁ ++ l₂) = endHash (endHash prev l₁) l₂ := by
  simp [endHash, List.foldl_append]

theorem verifyLoop_cons_none {H prev} {e : AuditEntry} {tl : List AuditEntry}
    (h : verifyLoop H prev (e :: tl) = none) :
    e.previous_hash = prev ∧ e.entry_hash = some (e.compute_hash H) ∧
      verifyLoop H e.entry_hash tl = none := by
  unfold verifyLoop at h
  split_ifs at h with h1 h2
  · exact ⟨not_not.mp h1, not_not.mp h2, h⟩

theorem verifyLoop_cons_of_ok {H prev} {e : AuditEntry} {tl : List AuditEntry}
    (h1 : e.previous_hash = prev) (h2 : e.entry_hash = some (e.compute_hash H)) :
    verifyLoop H prev (e :: tl) = verifyLoop H e.entry_hash tl := by
  conv_lhs => unfold verifyLoop
  simp [h1, h2]

theorem verifyLoop_append {H} {l₁ : List AuditEntry} (l₂ : List AuditEntry)
    {prev : Option String} (h : verifyLoop H prev l₁ = none) :
    verifyLoop H prev (l₁ ++ l₂) = verifyLoop H (endHash prev l₁) l₂ := by
  induction l₁ generalizing prev with
  | nil => simp [endHash]
  | cons e tl ih =>
    obtain ⟨h1, h2, h3⟩ := verifyLoop_cons_none h
    rw [List.cons_append, verifyLoop_cons_of_ok h1 h2, ih h3]
    rfl

/-- The invariant every chain built by `add` maintains: the verify walk
succeeds, and the running `last_hash` is the hash the walk ends with. -/
def Inv (H : HashInput → String) (c : AuditChain) : Prop :=
  verifyLoop H none c.entries = none ∧ endHash none c.entries = c.last_hash

theorem inv_empty (H : HashInput → String) : Inv H {} := by
  constructor <;> rfl

theorem inv_add {H c} (h : Inv H c) (e : AuditEntry) : Inv H (add H c e) := by
  obtain ⟨h1, h2⟩ := h
  have hph : (e.finalize H c.last_hash).previous_hash = c.last_hash := rfl
  have heh : (e.finalize H c.last_hash).entry_hash =
      some ((e.finalize H c.last_hash).compute_hash H) := rfl
  constructor
  · show verifyLoop H none (c.entries ++ [e.finalize H c.last_hash]) = none
    rw [verifyLoop_append _ h1, h2, verifyLoop_cons_of_ok hph heh]
    rfl
  · show endHash none (c.entries ++ [e.finalize H c.last_hash]) = _
    rw [endHash_append, h2]
    rfl

theorem inv_foldl {H} (l : List AuditEntry) (c : AuditChain) (h : Inv H c) :
    Inv H (l.foldl (add H) c) := by
  induction l generalizing c with
  | nil => exact h
  | cons e tl ih => exact ih _ (inv_add h e)

theorem inv_build (H : HashInput → String) (pres : List AuditEntry) :
    Inv H (build H pres) :=
  inv_foldl pres {} (inv_empty H)

theorem entries_length_add (H c e) :
    (add H c e).entries.length = c.entries.length + 1 := by
  simp [add]

theorem entries_length_build (H : HashInput → String) (pres : List AuditEntry) :
    (build H pres).entries.length = pres.length := by
  suffices h : ∀ c : AuditChain, (pres.foldl (add H) c).entries.length =
      c.entries.length + pres.length by
    simpa using h {}
  induction pres with
  | nil => intro c; simp
  | cons e tl ih =>
    intro c
    rw [List.foldl_cons, ih, entries_length_add]
    simp only [List.length_cons]
    omega

theorem verifyLoop_none_take {H} {l : List AuditEntry} {prev : Option String}
    (h : verifyLoop H prev l = none) (k : Nat) :
    verifyLoop H prev (l.take k) = none := by
  induction l generalizing prev k with
  | nil => simp [verifyLoop]
  | cons e tl ih =>
    cases k with
    | zero => rfl
    | succ k =>
      obtain ⟨h1, h2, h3⟩ := verifyLoop_cons_none h
      rw [List.take_succ_cons, verifyLoop_cons_of_ok h1 h2]
      exact ih h3 k

theorem verifyLoop_none_hashAt {H} {l : List AuditEntry} {prev : Option String}
    (h : verifyLoop H prev l = none) :
    ∀ i (hi : i < l.length),
      (l.get ⟨i, hi⟩).entry_hash = some ((l.get ⟨i, hi⟩).compute_hash H) := by
  induction l generalizing prev with
  | nil => intro i hi; simp at hi
  | cons e tl ih =>
    obtain ⟨_, h2, h3⟩ := verifyLoop_cons_none h
    intro i hi
    cases i with
    | zero => exact h2
    | succ i => exact ih h3 i (by simpa using hi)

theorem verifyLoop_none_prevAt {H} {l : List AuditEntry} {prev : Option String}
    (h : verifyLoop H prev l = none) :
    ∀ i (hi : i < l.length),
      (l.get ⟨i, hi⟩).previous_hash = endHash prev (l.take i) := by
  induction l generalizing prev with
  | nil => intro i hi; simp at hi
  | cons e tl ih =>
    obtain ⟨h1, _, h3⟩ := verifyLoop_cons_none h
    intro i hi
    cases i with
    | zero => simpa [endHash] using h1
    | succ i =>
      rw [List.take_succ_cons]
      have : endHash prev (e :: tl.take i) = endHash e.entry_hash (tl.take i) := rfl
      rw [this]
      exact ih h3 i (by simpa using hi)

theorem verifyLoop_none_link {H} {l : List AuditEntry} {prev : Option String}
    (h : verifyLoop H prev l = none) :
    ∀ i (hi : i + 1 < l.length),
      (l.get ⟨i + 1, hi⟩).previous_hash =
        (l.get ⟨i, by omega⟩).entry_hash := by
  induction l generalizing prev with
  | nil => intro i hi; simp at hi
  | cons e tl ih =>
    obtain ⟨_, _, h3⟩ := verifyLoop_cons_none h
    intro i hi
    cases i with
    | zero =>
      cases tl with
      | nil => simp at hi
      | cons e1 tl1 =>
        exact (verifyLoop_cons_none h3).1
    | succ i => exact ih h3 i (by simpa using hi)

theorem verify_chain_of_loop_none {H} {c : AuditChain}
    (h : verifyLoop H none c.entries = none) :
    (verify_chain H c).valid = true ∧
      (verify_chain H c).total_entries = c.entries.length := by
  unfold verify_chain
  split
  · next heq => simp [heq]
  · next e0 rest heq =>
    rw [heq] at h
    split
    · next bad hsome => rw [h] at hsome; exact absurd hsome (by simp)
    · next => exact ⟨rfl, by rw [heq]⟩

theorem verifyLoop_set_broken {H} {l : List AuditEntry} {prev : Option String}
    (h : verifyLoop H prev l = none) :
    ∀ i (hi : i < l.length) (e' : AuditEntry),
      ((e'.entry_hash = (l.get ⟨i, hi⟩).entry_hash ∧
          H e'.hashFields ≠ H (l.get ⟨i, hi⟩).hashFields) ∨
        (e'.hashFields = (l.get ⟨i, hi⟩).hashFields ∧
          e'.entry_hash ≠ (l.get ⟨i, hi⟩).entry_hash)) →
      verifyLoop H prev (l.set i e') = some e'.entry_id := by
  induction l generalizing prev with
  | nil => intro i hi; simp at hi
  | cons e tl ih =>
    obtain ⟨h1, h2, h3⟩ := verifyLoop_cons_none h
    intro i hi e' hd
    cases i with
    | zero =>
      simp only [List.get, List.set]
      rcases hd with ⟨ha, hb⟩ | ⟨ha, hb⟩
      · simp only [List.get] at ha hb
        by_cases hp : e'.previous_hash = prev
        · conv_lhs => unfold verifyLoop
          rw [if_neg (by simp [hp]), if_pos]
          show e'.entry_hash ≠ some (e'.compute_hash H)
          rw [ha, h2]
          simp only [ne_eq, Option.some.injEq]
          exact fun hcc => hb (by
            unfold AuditEntry.compute_hash at hcc
            exact hcc.symm)
        · conv_lhs => unfold verifyLoop
          rw [if_pos]
          exact hp
      · simp only [List.get] at ha hb
        have hprev : e'.previous_hash = prev := by
          have hp' : e'.previous_hash = e.previous_hash :=
            congrArg HashInput.previous_hash ha
          rw [hp', h1]
        conv_lhs => unfold verifyLoop
        rw [if_neg (by simp [hprev]), if_pos]
        show e'.entry_hash ≠ some (e'.compute_hash H)
        have hch : e'.compute_hash H = e.compute_hash H := by
          unfold AuditEntry.compute_hash
          rw [ha]
        rw [hch, ← h2]
        exact hb
    | succ i =>
      simp only [List.set]
      rw [verifyLoop_cons_of_ok h1 h2]
      exact ih h3 i (by simpa using hi) e' (by simpa using hd)

theorem verifyLoop_set_congr {H} (l : List AuditEntry) :
    ∀ i (hi : i < l.length) (e' : AuditEntry),
      e'.hashFields = (l.get ⟨i, hi⟩).hashFields →
      e'.entry_hash = (l.get ⟨i, hi⟩).entry_hash →
      ∀ prev, verifyLoop H prev (l.set i e') = verifyLoop H prev l := by
  induction l with
  | nil => intro i hi; simp at hi
  | cons e tl ih =>
    intro i hi e' hf hh prev
    cases i with
    | zero =>
      simp only [List.get] at hf hh
      simp only [List.set]
      have hprev : e'.previous_hash = e.previous_hash :=
        congrArg HashInput.previous_hash hf
      have hid : e'.entry_id = e.entry_id := congrArg HashInput.entry_id hf
      have hch : e'.compute_hash H = e.compute_hash H := by
        unfold AuditEntry.compute_hash
        rw [hf]
      unfold verifyLoop
      rw [hprev, hid, hch, hh]
    | succ i =>
      simp only [List.set]
      conv_lhs => unfold verifyLoop
      conv_rhs => unfold verifyLoop
      have := ih i (by simpa using hi) e' (by simpa using hf)
        (by simpa using hh) e.entry_hash
      rw [this]

theorem verify_chain_of_loop_some {H} {c : AuditChain} {bad : String}
    (h : verifyLoop H none c.entries = some bad) :
    (verify_chain H c).valid = false ∧
      (verify_chain H c).broken_at = some bad ∧
      (verify_chain H c).total_entries = c.entries.length := by
  unfold verify_chain
  split
  · next heq => rw [heq] at h; simp [verifyLoop] at h
  · next e0 rest heq =>
    rw [heq] at h
    split
    · next bad' hsome =>
      rw [h] at hsome
      cases hsome
      exact ⟨rfl, rfl, by rw [heq]⟩
    · next hnone => rw [h] at hnone; exact absurd hnone (by simp)

end AuditChain

/-! ## Layered security (layered_security.py)

Checks are polymorphic over the context map they read, so the context is a
type parameter; a check body is a function into `Except String CheckResult`
(a raising Python `check` is an `.error`). -/

inductive SecurityPhase
  | ENTRY | CONTENT | BEHAVIOR | EXECUTION
deriving DecidableEq, Repr

inductive Severity
  | LOW | MEDIUM | HIGH | CRITICAL
deriving DecidableEq, Repr

structure CheckResult where
  check_id : String
  passed : Bool
  message : String
  severity : Severity
  phase : SecurityPhase
  details : List (String × String) := []
  remediation : Option String := none
deriving DecidableEq, Repr

structure SecurityCheck (Ctx : Type) where
  check_id : String
  name : String
  phase : SecurityPhase
  severity : Severity := .MEDIUM
  enabled : Bool := true
  check : Ctx → Except String CheckResult

structure LayeredSecuritySystem (Ctx : Type) where
  checks : List (SecurityCheck Ctx)
  fail_fast : Bool := true

/-- The failing CRITICAL result `run_phase` records when a check raises
(layered_security.py lines 436-445). -/
def exceptionResult {Ctx : Type} (c : SecurityCheck Ctx) (phase : SecurityPhase)
    (e : String) : CheckResult :=
  { check_id := c.check_id, passed := false, message := "檢查異常: " ++ e,
    severity := .CRITICAL, phase := phase, details := [("error", e)] }

/-- The per-check walk of `run_phase` (layered_security.py lines 420-449):
skip checks of other phases or disabled checks; convert a raised exception
into a CRITICAL failing result; under fail-fast stop after a failing
CRITICAL/HIGH result or after any exception. -/
def runPhaseLoop {Ctx : Type} (fail_fast : Bool) (phase : SecurityPhase)
    (context : Ctx) : List (SecurityCheck Ctx) → List CheckResult
  | [] => []
  | c :: rest =>
    if c.phase ≠ phase ∨ c.enabled = false then
      runPhaseLoop fail_fast phase context rest
    else
      match c.check context with
      | .ok result =>
        if fail_fast ∧ result.passed = false ∧
            (result.severity = .CRITICAL ∨ result.severity = .HIGH) then
          [result]
        else
          result :: runPhaseLoop fail_fast phase context rest
      | .error e =>
        if fail_fast then [exceptionResult c phase e]
        else exceptionResult c phase e :: runPhaseLoop fail_fast phase context rest

/-- `LayeredSecuritySystem.run_phase`. -/
def LayeredSecuritySystem.run_phase {Ctx : Type} (sys : LayeredSecuritySystem Ctx)
    (phase : SecurityPhase) (context : Ctx) : List CheckResult :=
  runPhaseLoop sys.fail_fast phase context sys.checks

/-- `SQLReadOnlyCheck.WRITE_KEYWORDS` (layered_security.py lines 287-290). -/
def SQLReadOnlyCheck.WRITE_KEYWORDS : List String :=
  ["INSERT", "UPDATE", "DELETE", "DROP",
   "CREATE", "ALTER", "TRUNCATE", "GRANT", "REVOKE"]

/-- `SQLReadOnlyCheck.check` (layered_security.py lines 300-311); the
`context.get("sql", "")` read is modelled by passing the sql string.  The
source loop fails on the first keyword contained in the uppercased sql. -/
def SQLReadOnlyCheck.check (sql : String) : CheckResult :=
  match SQLReadOnlyCheck.WRITE_KEYWORDS.find?
      (fun keyword => containsSub keyword.toList (pyUpper sql.toList)) with
  | some keyword =>
    { check_id := "SEC-031", passed := false,
      message := "檢測到寫入操作: " ++ keyword, severity := .CRITICAL,
      phase := .EXECUTION,
      details := [("keyword", keyword), ("operation", "WRITE")],
      remediation := some "當前只允許 SELECT 查詢" }
  | none =>
    { check_id := "SEC-031", passed := true, message := "確認為只讀操作",
      severity := .CRITICAL, phase := .EXECUTION }

/-! ## Python values

Model of the Python `Any` values the overwriter, tools and contexts carry:
`str()` on them is `pyStr`.  (Python renders floats differently from `Rat`'s
printer; none of the claims inspect a rendered float.) -/

inductive PyVal
  | vNone
  | vBool (b : Bool)
  | vInt (n : ℤ)
  | vFloat (q : ℚ)
  | vStr (s : String)
deriving DecidableEq, Repr

def pyStr : PyVal → String
  | .vNone => "None"
  | .vBool b => if b then "True" else "False"
  | .vInt n => toString n
  | .vFloat q => toString q
  | .vStr s => s

def pyStrOpt : Option PyVal → String
  | none => "None"
  | some v => pyStr v

/-! ## Read-only SQL query runner (zero_hallucination_overwriter.py) -/

inductive DataSourceType
  | SQL | API | FILE | CACHE | MEMORY
deriving DecidableEq, Repr

structure DataSource where
  name : String
  source_type : DataSourceType
  connection_string : Option String := none
  read_only : Bool := true
  timeout : Nat := 30
  metadata : List (String × String) := []
deriving DecidableEq, Repr

/-- The value a query runner hands back; models
`query_result.get("data", {}).get("value")` of the runner result dict. -/
structure QueryOutput where
  value : Option PyVal
deriving DecidableEq, Repr

/-- `SQLQueryRunner.WRITE_KEYWORDS` (zero_hallucination_overwriter.py lines
85-88). -/
def SQLQueryRunner.WRITE_KEYWORDS : List String :=
  ["insert", "update", "delete", "drop", "create",
   "alter", "truncate", "grant", "revoke", "merge"]

/-- `SQLQueryRunner._is_readonly` (lines 120-134): the query must start with
SELECT after uppercasing and stripping, and must contain no write keyword in
its lowercased text. -/
def SQLQueryRunner._is_readonly (query : String) : Bool :=
  let query_upper := pyStrip (pyUpper query.toList)
  if ¬ listStartsWith "SELECT".toList query_upper then false
  else
    let query_lower := pyLower query.toList
    if SQLQueryRunner.WRITE_KEYWORDS.any
        (fun keyword => containsSub keyword.toList query_lower) then false
    else true

/-- `SQLQueryRunner.execute` (lines 93-118): raises on a non-read-only
query, otherwise returns the mocked result row. -/
def SQLQueryRunner.execute (data_source : DataSource) (query : String) :
    Except String QueryOutput :=
  if ¬ SQLQueryRunner._is_readonly query then
    .error ("拒絕非只讀查詢: " ++ String.mk (query.toList.take 50) ++ "...")
  else
    .ok { value := some (.vStr "精確數據值") }

/-! ## Tool runtime (tool_interface.py, executor.py) -/

inductive Permission
  | filesystem_read | filesystem_write
  | network_internal | network_external
  | database_read | database_write
  | process_execute
  | system_info | system_config
deriving DecidableEq, Repr

structure ToolMetadata where
  id : String
  name : String
  description : String
  category : String
  version : String := "1.0.0"
  author : String := "Unknown"
  license : String := "MIT"
  permissions : List Permission := []
  dangerous : Bool := false
  input_schema_timeout : Option Nat := none
  sandbox_required : Bool := true
  network_access : Bool := false
  filesystem_access : Bool := false
deriving DecidableEq, Repr

structure ToolContext where
  user_id : String
  tenant_id : String
  mode : String
  session_id : String
  permissions : List Permission
  request_id : String
deriving DecidableEq, Repr

/-- Structured model of the error strings a `ToolResult` can carry. -/
inductive ToolError
  | notFound (tool_id : String)
  | permissionDenied (missing : List Permission)
  | invalidInput
  | timedOut (timeout : Nat)
  | raised (message : String)
  | custom (message : String)
deriving DecidableEq, Repr

structure ToolResult where
  success : Bool
  data : Option PyVal := none
  error : Option ToolError := none
  metadata : List (String × String) := []
deriving DecidableEq, Repr

/-- Outcome of awaiting the tool's own `execute` under the timeout: a
normal result, an `asyncio.TimeoutError`, or any other exception. -/
inductive ToolOutcome
  | ok (result : ToolResult)
  | timeout
  | raised (message : String)

/-- A registered plugin: its metadata and its `validate_input`/`execute`
behaviour (arbitrary, supplied by the plugin). -/
structure ToolInterface where
  metadata : ToolMetadata
  validate_input : List (String × PyVal) → Bool
  execute : ToolContext → List (String × PyVal) → ToolOutcome

/-- `ToolInterface.check_permission` (tool_interface.py lines 151-163):
required permission set ⊆ granted permission set. -/
def ToolInterface.check_permission (tool : ToolInterface)
    (context : ToolContext) : Bool :=
  tool.metadata.permissions.all (fun p => p ∈ context.permissions)

/-- What `ToolExecutor.execute` produced, plus whether the tool's own
`execute` coroutine was ever invoked on the way. -/
structure ToolExecution where
  result : ToolResult
  executeInvoked : Bool
deriving Repr

/-- `ToolExecutor.execute` (executor.py lines 49-182).  The registry lookup
is the function `registry`; the messages are modelled structurally by
`ToolError`; `missing_perms` is `required - granted`.  The sandbox branch
delegates to the same timeout execution as the plain branch (executor.py
lines 197-214), so both map to `tool.execute`.  A `timeout` argument of 0 is
falsy in Python, so it falls back to the schema/default timeout. -/
def ToolExecutor.execute (registry : String → Option ToolInterface)
    (default_timeout : Nat) (enable_sandbox : Bool) (tool_id : String)
    (context : ToolContext) (params : List (String × PyVal))
    (timeout : Option Nat) : ToolExecution :=
  match registry tool_id with
  | none =>
    { result := { success := false, error := some (.notFound tool_id) },
      executeInvoked := false }
  | some tool =>
    if ¬ tool.check_permission context then
      { result := { success := false,
                    error := some (.permissionDenied
                      (tool.metadata.permissions.filter
                        (fun p => p ∉ context.permissions))) },
        executeInvoked := false }
    else if tool.validate_input params = false then
      { result := { success := false, error := some .invalidInput },
        executeInvoked := false }
    else
      let t := match timeout with
        | some t0 =>
          if t0 ≠ 0 then t0
          else tool.metadata.input_schema_timeout.getD default_timeout
        | none => tool.metadata.input_schema_timeout.getD default_timeout
      match tool.execute context params with
      | .ok r => { result := r, executeInvoked := true }
      | .timeout =>
        { result := { success := false, error := some (.timedOut t) },
          executeInvoked := true }
      | .raised m =>
        { result := { success := false, error := some (.raised m) },
          executeInvoked := true }

/-! ## Dynamic mode engine (dynamic_mode_engine.py)

The regex engine behind `re.search` is the parameter `reSearch`; Python's
builtin `hash` is the parameter `pyHash`.  Human-readable `reason` strings
are modelled structurally by `DecisionReason`. -/

structure SensitivityRule where
  pattern : String
  score : ℚ
  category : String
  is_regex : Bool := false
deriving DecidableEq, Repr

/-- `SensitivityAnalyzer.DEFAULT_RULES` (dynamic_mode_engine.py lines
56-80). -/
def SensitivityAnalyzer.DEFAULT_RULES : List SensitivityRule :=
  [⟨"密碼|密码|password|密鑰|密钥|private.?key", 95/100, "credential", true⟩,
   ⟨"信用卡|credit.?card|CVV|\\b\\d\x7b16\x7d\\b", 9/10, "financial", true⟩,
   ⟨"轉帳|转账|匯款|汇款|transfer|balance", 85/100, "financial", true⟩,
   ⟨"銀行帳號|银行账号|account.?number", 8/10, "financial", true⟩,
   ⟨"身份證|身份证|ID.?card|身分證|身分证", 95/100, "identity", true⟩,
   ⟨"護照|护照|passport", 9/10, "identity", true⟩,
   ⟨"手機號|手机号|phone|\\b\\d\x7b11\x7d\\b", 7/10, "identity", true⟩,
   ⟨"地址|address|住址", 6/10, "identity", true⟩,
   ⟨"姓名|name", 5/10, "identity", true⟩,
   ⟨"刪除|删除|delete|drop|truncate", 85/100, "system", true⟩,
   ⟨"修改|update|alter", 75/100, "system", true⟩,
   ⟨"執行|执行|exec|eval|system", 7/10, "system", true⟩,
   ⟨"rm\\s+-rf|chmod\\s+777", 95/100, "system", true⟩,
   ⟨"營業額|营业额|revenue|profit", 75/100, "business", true⟩,
   ⟨"客戶名單|客户名单|customer.?list", 8/10, "business", true⟩,
   ⟨"合約|合约|contract|agreement", 6/10, "business", true⟩]

/-- `SensitivityAnalyzer._matches` (lines 137-146): regex rules go through
the (cached) regex engine; literal rules lower-case the pattern and test
substring containment against the (unlowered) content. -/
def SensitivityAnalyzer.matches (reSearch : String → String → Bool)
    (content : String) (rule : SensitivityRule) : Bool :=
  if rule.is_regex then reSearch rule.pattern content
  else containsSub (pyLower rule.pattern.toList) content.toList

/-- The context keys `_adjust_by_context` reads. -/
structure SContext where
  user_marked_sensitive : Bool := false
  is_admin : Bool := false
  environment : Option String := none
deriving DecidableEq, Repr

/-- `SensitivityAnalyzer._adjust_by_context` (lines 148-162). -/
def SensitivityAnalyzer.adjust_by_context (score : ℚ) (context : SContext) :
    ℚ :=
  let s1 := if context.user_marked_sensitive then max score (9/10) else score
  let s2 := if context.is_admin then min (s1 * (11/10)) 1 else s1
  if context.environment = some "production" then min (s2 * (115/100)) 1
  else s2

/-- The base score of `analyze` before context adjustment (lines 113-119):
highest matched score plus a count bonus capped at 0.15, clamped to 1;
default 0.1 when nothing matched. -/
def SensitivityAnalyzer.rawScore (matched_rules : List SensitivityRule) : ℚ :=
  match matched_rules with
  | [] => 1/10
  | m :: ms =>
    let base_score := (ms.map SensitivityRule.score).foldl max m.score
    let count_bonus :=
      min (((m :: ms).length : ℚ) * (5/100)) (15/100)
    min (base_score + count_bonus) 1

structure SensitivityAnalysis where
  score : ℚ
  matched_rules : List SensitivityRule
  categories : List String
  rule_count : Nat
  content_length : Nat
  has_pii : Bool
  has_credential : Bool
deriving DecidableEq, Repr

/-- `SensitivityAnalyzer.analyze` (lines 86-135).  The Python `set` of
categories is modelled as a deduplicated list (the set's iteration order is
unspecified anyway). -/
def SensitivityAnalyzer.analyze (reSearch : String → String → Bool)
    (rules : List SensitivityRule) (content : String)
    (context : Option SContext) : SensitivityAnalysis :=
  let matched_rules :=
    rules.filter (SensitivityAnalyzer.matches reSearch content)
  let categories := (matched_rules.map SensitivityRule.category).dedup
  let final_score := SensitivityAnalyzer.rawScore matched_rules
  let adjusted := match context with
    | some ctx => SensitivityAnalyzer.adjust_by_context final_score ctx
    | none => final_score
  { score := pyRound2 adjusted,
    matched_rules := matched_rules,
    categories := categories,
    rule_count := matched_rules.length,
    content_length := content.length,
    has_pii := categories.contains "identity",
    has_credential := categories.contains "credential" }

inductive ExecutionMode
  | LOCAL_ONLY | HYBRID | CLOUD_SANDBOX
deriving DecidableEq, Repr

/-- Structured model of the `reason` strings of `ModeDecision`. -/
inductive DecisionReason
  | content_override
  | user_override (user_id : String)
  | above_local_threshold (score threshold : ℚ)
  | below_cloud_threshold (score threshold : ℚ)
  | default_hybrid (score : ℚ)
deriving DecidableEq, Repr

structure ModeDecision where
  mode : ExecutionMode
  confidence : ℚ
  reason : DecisionReason
  sensitivity_score : ℚ
  requires_confirmation : Bool := false
  suggested_actions : List String := []
deriving DecidableEq, Repr

/-- The dict `decide` hands to each custom decision hook (lines 225-231). -/
structure HookInput where
  content : String
  score : ℚ
  analysis : SensitivityAnalysis
  context : Option SContext

/-- Engine state.  `_user_overrides` keys are either the content
fingerprint `hash(content) % 10000` (an int) or a `"user:<id>"` string, so
the key type is `Int ⊕ String`. -/
structure DynamicModeEngine where
  local_threshold : ℚ := 8/10
  cloud_threshold : ℚ := 3/10
  default_mode : ExecutionMode := .HYBRID
  user_overrides : List ((Int ⊕ String) × ExecutionMode) := []
  decision_hooks : List (HookInput → Option ModeDecision) := []

def lookupOverride (overrides : List ((Int ⊕ String) × ExecutionMode))
    (k : Int ⊕ String) : Option ExecutionMode :=
  (overrides.find? (fun p => p.1 = k)).map Prod.snd

/-- `DynamicModeEngine._check_override` (lines 238-265). -/
def DynamicModeEngine._check_override (eng : DynamicModeEngine)
    (pyHash : String → Int) (content : String) (user_id : Option String) :
    Option ModeDecision :=
  match lookupOverride eng.user_overrides (Sum.inl (pyHash content % 10000)) with
  | some mode =>
    some { mode := mode, confidence := 1, reason := .content_override,
           sensitivity_score := 0 }
  | none =>
    match user_id with
    | some uid =>
      match lookupOverride eng.user_overrides (Sum.inr ("user:" ++ uid)) with
      | some mode =>
        some { mode := mode, confidence := 1, reason := .user_override uid,
               sensitivity_score := 0 }
      | none => none
    | none => none

/-- `DynamicModeEngine._make_decision` (lines 267-317). -/
def DynamicModeEngine._make_decision (eng : DynamicModeEngine) (score : ℚ)
    (analysis : SensitivityAnalysis) (context : Option SContext) :
    ModeDecision :=
  if score ≥ eng.local_threshold then
    { mode := .LOCAL_ONLY, confidence := 95/100,
      reason := .above_local_threshold score eng.local_threshold,
      sensitivity_score := score, requires_confirmation := true,
      suggested_actions :=
        ["建議使用本地模型處理", "敏感數據將完全隔離", "雲端僅接收脫敏後的元數據"] }
  else if score ≤ eng.cloud_threshold then
    { mode := .CLOUD_SANDBOX, confidence := 85/100,
      reason := .below_cloud_threshold score eng.cloud_threshold,
      sensitivity_score := score, requires_confirmation := false,
      suggested_actions := ["可使用雲端模型加速處理", "數據已自動脫敏"] }
  else
    { mode := .HYBRID, confidence := 8/10,
      reason := .default_hybrid score,
      sensitivity_score := score,
      requires_confirmation := decide (score > 1/2),
      suggested_actions := ["雲端負責推理規劃", "本地執行實際操作", "最終結果本地覆寫"] }

/-- First non-null result of the custom decision hooks (lines 224-233). -/
def firstHook : List (HookInput → Option ModeDecision) → HookInput →
    Option ModeDecision
  | [], _ => none
  | h :: hs, inp =>
    match h inp with
    | some d => some d
    | none => firstHook hs inp

/-- `DynamicModeEngine.decide` (lines 198-236): override lookup, then
analysis over the engine's default rule set, then custom hooks, then the
standard threshold rule. -/
def DynamicModeEngine.decide (eng : DynamicModeEngine)
    (reSearch : String → String → Bool) (pyHash : String → Int)
    (content : String) (user_id : Option String) (context : Option SContext) :
    ModeDecision :=
  match eng._check_override pyHash content user_id with
  | some d => d
  | none =>
    let analysis :=
      SensitivityAnalyzer.analyze reSearch SensitivityAnalyzer.DEFAULT_RULES
        content context
    let score := analysis.score
    match firstHook eng.decision_hooks
        { content := content, score := score, analysis := analysis,
          context := context } with
    | some d => d
    | none => eng._make_decision score analysis context

/-! ## Zero-hallucination overwriter (zero_hallucination_overwriter.py)

The placeholder grammar of `PlaceholderParser.PLACEHOLDER_PATTERNS` is
implemented directly: each of the four regexes is `open-delimiter, dotted
word chain, close-delimiter` (for `$name` the trailing word boundary is
automatic because the dotted chain is taken greedily), scanned left to
right without overlap exactly as `re.finditer` does, pattern by pattern. -/

/-- Python regex `\w` (ASCII part, which is what the templates use). -/
def isWordChar (c : Char) : Bool := c.isAlphanum || c = '_'

/-- Longest `\w*` prefix and the remainder. -/
def takeWord (l : List Char) : List Char × List Char :=
  (l.takeWhile isWordChar, l.dropWhile isWordChar)

/-- Greedy `(?:\.\w+)*` (fueled to keep the recursion structural). -/
def dottedExtF : Nat → List Char → List Char × List Char
  | 0, l => ([], l)
  | fuel + 1, l =>
    match l with
    | '.' :: cs =>
      match takeWord cs with
      | ([], _) => ([], l)
      | (w, rest) =>
        let (more, rest') := dottedExtF fuel rest
        ('.' :: (w ++ more), rest')
    | _ => ([], l)

/-- Greedy `\w+(?:\.\w+)*`: the dotted key of a placeholder. -/
def parseDotted (l : List Char) : Option (List Char × List Char) :=
  match takeWord l with
  | ([], _) => none
  | (w, rest) =>
    let (more, rest') := dottedExtF rest.length rest
    some (w ++ more, rest')

/-- Match `\{\{(\w+(?:\.\w+)*)\}\}` at the head; returns
(matched text, key, remainder). -/
def matchBrace2 (l : List Char) : Option (List Char × List Char × List Char) :=
  match l with
  | a :: b :: rest =>
    if a = Char.ofNat 123 ∧ b = Char.ofNat 123 then
      match parseDotted rest with
      | some (key, r1) =>
        match r1 with
        | c :: d :: r2 =>
          if c = Char.ofNat 125 ∧ d = Char.ofNat 125 then
            some ([a, b] ++ key ++ [c, d], key, r2)
          else none
        | _ => none
      | none => none
    else none
  | _ => none

/-- Match `\$\{(\w+(?:\.\w+)*)\}` at the head. -/
def matchDollarBrace (l : List Char) :
    Option (List Char × List Char × List Char) :=
  match l with
  | a :: b :: rest =>
    if a = '$' ∧ b = Char.ofNat 123 then
      match parseDotted rest with
      | some (key, r1) =>
        match r1 with
        | c :: r2 =>
          if c = Char.ofNat 125 then some ([a, b] ++ key ++ [c], key, r2)
          else none
        | _ => none
      | none => none
    else none
  | _ => none

/-- Match `\$(\w+(?:\.\w+)*)\b` at the head (the boundary holds because the
key is taken greedily, so the remainder never starts with a word char). -/
def matchDollar (l : List Char) :
    Option (List Char × List Char × List Char) :=
  match l with
  | a :: rest =>
    if a = '$' then
      match parseDotted rest with
      | some (key, r1) => some (a :: key, key, r1)
      | none => none
    else none
  | _ => none

/-- Match `\[\[(\w+(?:\.\w+)*)\]\]` at the head. -/
def matchBracket2 (l : List Char) :
    Option (List Char × List Char × List Char) :=
  match l with
  | a :: b :: rest =>
    if a = '[' ∧ b = '[' then
      match parseDotted rest with
      | some (key, r1) =>
        match r1 with
        | c :: d :: r2 =>
          if c = ']' ∧ d = ']' then some ([a, b] ++ key ++ [c, d], key, r2)
          else none
        | _ => none
      | none => none
    else none
  | _ => none

/-- Left-to-right non-overlapping scan of one pattern (`re.finditer`);
emits (placeholder text, key) pairs. -/
def scanWith (m : List Char → Option (List Char × List Char × List Char)) :
    Nat → List Char → List (String × String)
  | 0, _ => []
  | _ + 1, [] => []
  | fuel + 1, c :: cs =>
    match m (c :: cs) with
    | some (ph, key, rest) => (String.mk ph, String.mk key) :: scanWith m fuel rest
    | none => scanWith m fuel cs

/-- `PlaceholderParser.parse` (lines 151-174), with the (placeholder, key)
pairs collected pattern by pattern in source order; positions are not
collected because `overwrite` never reads them. -/
def parsePlaceholders (template : String) : List (String × String) :=
  scanWith matchBrace2 template.toList.length template.toList ++
  scanWith matchDollarBrace template.toList.length template.toList ++
  scanWith matchDollar template.toList.length template.toList ++
  scanWith matchBracket2 template.toList.length template.toList

structure OverwriteRule where
  placeholder : String
  data_source : String
  query_template : String
  fallback_value : Option PyVal := none
  validator : Option (Option PyVal → Bool) := none
  transform : Option (Option PyVal → Option PyVal) := none

structure OverwriteResult where
  success : Bool
  placeholder : String
  original_value : String
  final_value : Option PyVal
  data_source : String
  error : Option String := none
deriving DecidableEq, Repr

/-- Overwriter state: data sources and rules keyed by name/placeholder
text, and the query-runner table keyed by data-source type (the runners
themselves are external collaborators, hence functions). -/
structure ZeroHallucinationOverwriter where
  data_sources : List (String × DataSource) := []
  rules : List (String × OverwriteRule) := []
  query_runners :
    DataSourceType → Option (DataSource → String → Except String QueryOutput)

/-- The runner table `_register_default_runners` installs: the read-only
`SQLQueryRunner` for SQL sources. -/
def defaultRunners :
    DataSourceType → Option (DataSource → String → Except String QueryOutput)
  | .SQL => some (fun data_source query => SQLQueryRunner.execute data_source query)
  | _ => none

/-- Model of a Python string-keyed dict `get`. -/
def lookupStr {α : Type} (l : List (String × α)) (k : String) : Option α :=
  (l.find? (fun p => p.1 = k)).map Prod.snd

/-- `ZeroHallucinationOverwriter._sanitize_value` (lines 423-433): ints and
floats (and bools, which are ints in Python) are inlined; strings are
restricted to `[\w\s.-]` and quoted; anything else is `str()`-ed. -/
def ZeroHallucinationOverwriter._sanitize_value (value : PyVal) : String :=
  match value with
  | .vStr s =>
    "'" ++ String.mk (s.toList.filter
      (fun c => isWordChar c || isPySpace c || c = '.' || c = '-')) ++ "'"
  | v => pyStr v

/-- The per-item walk of `_build_query` over `context.items()` (insertion
order), replacing `{key}` when present. -/
def buildQueryLoop : List (String × PyVal) → List Char → List Char
  | [], query => query
  | (key, value) :: rest, query =>
    let placeholder := Char.ofNat 123 :: key.toList ++ [Char.ofNat 125]
    let query' :=
      if containsSub placeholder query then
        pyReplace query placeholder
          (ZeroHallucinationOverwriter._sanitize_value value).toList
      else query
    buildQueryLoop rest query'

/-- `ZeroHallucinationOverwriter._build_query` (lines 407-421). -/
def ZeroHallucinationOverwriter._build_query (template : String)
    (context : Option (List (String × PyVal))) : String :=
  match context with
  | none => template
  | some ctx => String.mk (buildQueryLoop ctx template.toList)

/-- The `try` block of `_overwrite_single` (lines 353-381): build the
query, look up a runner (a missing runner raises), run the query, validate
(a rejected value raises), transform. -/
def tryResolveQuery (ow : ZeroHallucinationOverwriter) (rule : OverwriteRule)
    (data_source : DataSource) (context : Option (List (String × PyVal))) :
    Except String (Option PyVal) :=
  let query := ZeroHallucinationOverwriter._build_query rule.query_template context
  match ow.query_runners data_source.source_type with
  | none => .error "不支持的數據源類型"
  | some runner =>
    match runner data_source query with
    | .error e => .error e
    | .ok out =>
      if (match rule.validator with
          | some validator => ! validator out.value
          | none => false) then
        .error ("值驗證失敗: " ++ pyStrOpt out.value)
      else
        .ok (match rule.transform with
          | some transform => transform out.value
          | none => out.value)

/-- `ZeroHallucinationOverwriter._overwrite_single` (lines 305-405). -/
def ZeroHallucinationOverwriter._overwrite_single
    (ow : ZeroHallucinationOverwriter)
    (context : Option (List (String × PyVal))) (placeholder key : String) :
    OverwriteResult :=
  match lookupStr ow.rules placeholder with
  | none =>
    match (match context with
           | some ctx => lookupStr ctx key
           | none => none) with
    | some value =>
      { success := true, placeholder := placeholder,
        original_value := placeholder, final_value := some value,
        data_source := "context" }
    | none =>
      { success := false, placeholder := placeholder,
        original_value := placeholder, final_value := none,
        data_source := "unknown",
        error := some ("未找到佔位符 '" ++ placeholder ++ "' 的覆寫規則") }
  | some rule =>
    match lookupStr ow.data_sources rule.data_source with
    | none =>
      { success := false, placeholder := placeholder,
        original_value := placeholder, final_value := none,
        data_source := rule.data_source,
        error := some ("數據源 '" ++ rule.data_source ++ "' 未註冊") }
    | some data_source =>
      match tryResolveQuery ow rule data_source context with
      | .ok value =>
        { success := true, placeholder := placeholder,
          original_value := placeholder, final_value := value,
          data_source := rule.data_source }
      | .error e =>
        match rule.fallback_value with
        | some fb =>
          { success := true, placeholder := placeholder,
            original_value := placeholder, final_value := some fb,
            data_source := rule.data_source }
        | none =>
          { success := false, placeholder := placeholder,
            original_value := placeholder, final_value := none,
            data_source := rule.data_source, error := some e }

/-- One substitution step of the `overwrite` loop (lines 277-287): a
successful result's value replaces every occurrence of the placeholder;
otherwise the rule's fallback (when declared) is substituted; otherwise the
output is left alone. -/
def overwriteStep (ow : ZeroHallucinationOverwriter) (acc : String)
    (placeholder : String) (result : OverwriteResult) : String :=
  if result.success then
    String.mk (pyReplace acc.toList placeholder.toList
      (pyStrOpt result.final_value).toList)
  else
    match lookupStr ow.rules placeholder with
    | some rule =>
      match rule.fallback_value with
      | some fb =>
        String.mk (pyReplace acc.toList placeholder.toList (pyStr fb).toList)
      | none => acc
    | none => acc

/-- The main loop of `overwrite` (lines 262-287): resolve each parsed
placeholder and fold the substitutions over the template. -/
def overwriteLoop (ow : ZeroHallucinationOverwriter)
    (context : Option (List (String × PyVal))) :
    List (String × String) → String → List OverwriteResult × String
  | [], acc => ([], acc)
  | (placeholder, key) :: rest, acc =>
    let result := ow._overwrite_single context placeholder key
    let acc' := overwriteStep ow acc placeholder result
    let (rs, final) := overwriteLoop ow context rest acc'
    (result :: rs, final)

structure OverwriteOutput where
  final_output : String
  results : List OverwriteResult
  success : Bool
  total : Nat
  success_count : Nat
  failed : Nat
deriving DecidableEq, Repr

/-- `ZeroHallucinationOverwriter.overwrite` (lines 227-303); the elapsed
`time_ms` stat is wall-clock and not modelled. -/
def ZeroHallucinationOverwriter.overwrite (ow : ZeroHallucinationOverwriter)
    (template : String) (context : Option (List (String × PyVal))) :
    OverwriteOutput :=
  match parsePlaceholders template with
  | [] =>
    { final_output := template, results := [], success := true, total := 0,
      success_count := 0, failed := 0 }
  | p :: ps =>
    let (results, final_output) := overwriteLoop ow context (p :: ps) template
    let success_count := (results.filter (fun r => r.success)).length
    { final_output := final_output, results := results,
      success := success_count == results.length,
      total := results.length, success_count := success_count,
      failed := results.length - success_count }

/-! ## Sample data used by closed witnesses and counterexamples -/

/-- A concrete stand-in for the SHA-256-over-JSON hash used in closed
witnesses; it separates entries whose `action` or `previous_hash` differ. -/
def sampleHash : HashInput → String :=
  fun h => h.action ++ "|" ++ h.previous_hash.getD "-"

def sampleEntry1 : AuditEntry :=
  { entry_id := "id-1", timestamp := 1, level := .info,
    event_type := .execution_start, session_id := "sess", request_id := "req",
    action := "start", description := "first" }

def sampleEntry2 : AuditEntry :=
  { entry_id := "id-2", timestamp := 2, level := .info,
    event_type := .execution_end, session_id := "sess", request_id := "req",
    action := "finish", description := "second" }

/-- The two-entry sample chain with the description of entry 0 tampered
after it was appended. -/
def c1TamperedChain : AuditChain :=
  { AuditChain.build sampleHash [sampleEntry1, sampleEntry2] with
    entries := (AuditChain.build sampleHash [sampleEntry1, sampleEntry2]).entries.set 0
      { ((AuditChain.build sampleHash [sampleEntry1, sampleEntry2]).entries.getD 0 sampleEntry1) with
        description := "tampered" } }

/-! ## C1 -/

/-- C1 counterexample: `compute_hash` only covers (entry_id, timestamp,
event_type, action, session_id, request_id, previous_hash), so mutating the
`description` field of a previously-appended entry is NOT detected:
`verify_chain` still reports the chain valid, contradicting the claim that
mutating any single field makes it invalid at that entry. -/
theorem c1_mutation_counterexample :
    (AuditChain.verify_chain sampleHash c1TamperedChain).valid = true ∧
    (AuditChain.verify_chain sampleHash c1TamperedChain).broken_at = none ∧
    (c1TamperedChain.entries.getD 0 sampleEntry1).description = "tampered" ∧
    ((AuditChain.build sampleHash [sampleEntry1, sampleEntry2]).entries.getD 0
        sampleEntry1).description = "first" := by
  decide

/-- C1 (amended): on a chain built by appends, replacing the entry at
position `i` by an entry that mutates the stored `entry_hash`, or that
mutates some hashed field (entry_id, timestamp, event_type, action,
session_id, request_id, previous_hash) in a way the hash function
distinguishes (no hash collision), makes `verify_chain` report the chain
invalid with `broken_at` equal to that entry's `entry_id`; whereas a
mutation that leaves all hashed fields and the stored `entry_hash`
unchanged (e.g. of description, user_id, level, or success) leaves
`verify_chain` reporting valid. -/
theorem c1_mutation_detection (H : HashInput → String) (pres : List AuditEntry)
    (i : Nat) (hi : i < (AuditChain.build H pres).entries.length)
    (e' : AuditEntry) :
    (((e'.entry_hash = ((AuditChain.build H pres).entries.get ⟨i, hi⟩).entry_hash ∧
        H e'.hashFields ≠ H ((AuditChain.build H pres).entries.get ⟨i, hi⟩).hashFields) ∨
      (e'.hashFields = ((AuditChain.build H pres).entries.get ⟨i, hi⟩).hashFields ∧
        e'.entry_hash ≠ ((AuditChain.build H pres).entries.get ⟨i, hi⟩).entry_hash)) →
      ((AuditChain.verify_chain H { AuditChain.build H pres with
          entries := (AuditChain.build H pres).entries.set i e' }).valid = false ∧
        (AuditChain.verify_chain H { AuditChain.build H pres with
          entries := (AuditChain.build H pres).entries.set i e' }).broken_at =
            some e'.entry_id)) ∧
    ((e'.hashFields = ((AuditChain.build H pres).entries.get ⟨i, hi⟩).hashFields ∧
        e'.entry_hash = ((AuditChain.build H pres).entries.get ⟨i, hi⟩).entry_hash) →
      (AuditChain.verify_chain H { AuditChain.build H pres with
          entries := (AuditChain.build H pres).entries.set i e' }).valid = true) := by
  obtain ⟨hv, -⟩ := AuditChain.inv_build H pres
  constructor
  · intro hd
    have hb := AuditChain.verifyLoop_set_broken hv i hi e' hd
    have := AuditChain.verify_chain_of_loop_some
      (c := { AuditChain.build H pres with
        entries := (AuditChain.build H pres).entries.set i e' }) hb
    exact ⟨this.1, this.2.1⟩
  · intro ⟨hf, hh⟩
    have hc := AuditChain.verifyLoop_set_congr (H := H)
      (AuditChain.build H pres).entries i hi e' hf hh none
    have hn : AuditChain.verifyLoop H none
        ((AuditChain.build H pres).entries.set i e') = none := by
      rw [hc]; exact hv
    exact (AuditChain.verify_chain_of_loop_none
      (c := { AuditChain.build H pres with
        entries := (AuditChain.build H pres).entries.set i e' }) hn).1

/-- C1 witness: a concrete chain, mutating the `action` of entry 0 (its
stored hash kept), is reported invalid broken at "id-1". -/
theorem c1_mutation_detection_witness :
    (AuditChain.verify_chain sampleHash
      { AuditChain.build sampleHash [sampleEntry1, sampleEntry2] with
        entries := (AuditChain.build sampleHash [sampleEntry1, sampleEntry2]).entries.set 0
          { ((AuditChain.build sampleHash [sampleEntry1, sampleEntry2]).entries.getD 0 sampleEntry1) with
            action := "evil" } }).valid = false ∧
    (AuditChain.verify_chain sampleHash
      { AuditChain.build sampleHash [sampleEntry1, sampleEntry2] with
        entries := (AuditChain.build sampleHash [sampleEntry1, sampleEntry2]).entries.set 0
          { ((AuditChain.build sampleHash [sampleEntry1, sampleEntry2]).entries.getD 0 sampleEntry1) with
            action := "evil" } }).broken_at = some "id-1" :=
  (c1_mutation_detection sampleHash [sampleEntry1, sampleEntry2] 0 (by decide)
    { ((AuditChain.build sampleHash [sampleEntry1, sampleEntry2]).entries.getD 0 sampleEntry1) with
      action := "evil" }).1 (Or.inl ⟨by decide, by decide⟩)

/-! ## C4 -/

/-- C4: appending N entries to a fresh chain yields a chain that verifies
valid with `total_entries = N`, whose entry `i+1` stores as `previous_hash`
the `entry_hash` of entry `i`, and whose first entry stores `previous_hash
= none`. -/
theorem c4_append_then_verify (H : HashInput → String)
    (pres : List AuditEntry) :
    (AuditChain.verify_chain H (AuditChain.build H pres)).valid = true ∧
    (AuditChain.verify_chain H (AuditChain.build H pres)).total_entries =
      pres.length ∧
    (∀ i (hi : i + 1 < (AuditChain.build H pres).entries.length),
      ((AuditChain.build H pres).entries.get ⟨i + 1, hi⟩).previous_hash =
        ((AuditChain.build H pres).entries.get ⟨i, by omega⟩).entry_hash) ∧
    (∀ h0 : 0 < (AuditChain.build H pres).entries.length,
      ((AuditChain.build H pres).entries.get ⟨0, h0⟩).previous_hash = none) := by
  obtain ⟨hv, -⟩ := AuditChain.inv_build H pres
  have hstat := AuditChain.verify_chain_of_loop_none hv
  refine ⟨hstat.1, ?_, ?_, ?_⟩
  · rw [hstat.2, AuditChain.entries_length_build]
  · exact AuditChain.verifyLoop_none_link hv
  · intro h0
    have := AuditChain.verifyLoop_none_prevAt hv 0 h0
    simpa [AuditChain.endHash] using this

/-- C4 witness at a concrete two-entry chain. -/
theorem c4_append_then_verify_witness :
    (AuditChain.verify_chain sampleHash
      (AuditChain.build sampleHash [sampleEntry1, sampleEntry2])).valid = true ∧
    ((AuditChain.build sampleHash [sampleEntry1, sampleEntry2]).entries.get
        ⟨1, by decide⟩).previous_hash =
      ((AuditChain.build sampleHash [sampleEntry1, sampleEntry2]).entries.get
        ⟨0, by decide⟩).entry_hash :=
  ⟨(c4_append_then_verify sampleHash [sampleEntry1, sampleEntry2]).1,
    (c4_append_then_verify sampleHash [sampleEntry1, sampleEntry2]).2.2.1 0
      (by decide)⟩

/-! ## C10 -/

/-- C10: dropping the newest N−k entries from a chain built by appends is
not detected: `verify_chain` over the first k entries reports valid with
`total_entries = k`. -/
theorem c10_truncation_undetected (H : HashInput → String)
    (pres : List AuditEntry) (k : Nat) (hk : k ≤ pres.length) :
    (AuditChain.verify_chain H { AuditChain.build H pres with
        entries := (AuditChain.build H pres).entries.take k }).valid = true ∧
    (AuditChain.verify_chain H { AuditChain.build H pres with
        entries := (AuditChain.build H pres).entries.take k }).total_entries =
      k := by
  obtain ⟨hv, -⟩ := AuditChain.inv_build H pres
  have ht := AuditChain.verifyLoop_none_take hv k
  have hstat := AuditChain.verify_chain_of_loop_none
    (c := { AuditChain.build H pres with
      entries := (AuditChain.build H pres).entries.take k }) ht
  refine ⟨hstat.1, ?_⟩
  rw [hstat.2]
  show ((AuditChain.build H pres).entries.take k).length = k
  rw [List.length_take, AuditChain.entries_length_build]
  omega

/-- C10 witness: truncating a two-entry chain to its first entry still
verifies as a valid chain of one entry. -/
theorem c10_truncation_undetected_witness :
    (AuditChain.verify_chain sampleHash
      { AuditChain.build sampleHash [sampleEntry1, sampleEntry2] with
        entries := (AuditChain.build sampleHash
          [sampleEntry1, sampleEntry2]).entries.take 1 }).valid = true ∧
    (AuditChain.verify_chain sampleHash
      { AuditChain.build sampleHash [sampleEntry1, sampleEntry2] with
        entries := (AuditChain.build sampleHash
          [sampleEntry1, sampleEntry2]).entries.take 1 }).total_entries = 1 :=
  c10_truncation_undetected sampleHash [sampleEntry1, sampleEntry2] 1
    (by decide)

/-! ## C2 -/

/-- The formalisation of "contains the keyword in some letter case": each
character is the keyword's character or its lower-case form. -/
def caseVariant : List Char → List Char → Bool
  | [], [] => true
  | c :: cs, k :: ks => (c == k || c == asciiLower k) && caseVariant cs ks
  | _, _ => false

theorem caseVariant_upper : ∀ {w kw : List Char},
    (∀ k ∈ kw, asciiUpper k = k ∧ asciiUpper (asciiLower k) = k) →
    caseVariant w kw = true → pyUpper w = kw := by
  intro w
  induction w with
  | nil =>
    intro kw hk h
    cases kw with
    | nil => rfl
    | cons k ks => simp [caseVariant] at h
  | cons c cs ih =>
    intro kw hk h
    cases kw with
    | nil => simp [caseVariant] at h
    | cons k ks =>
      simp only [caseVariant, Bool.and_eq_true, Bool.or_eq_true,
        beq_iff_eq] at h
      obtain ⟨hck, hrest⟩ := h
      have hkk := hk k (List.mem_cons_self k ks)
      show asciiUpper c :: pyUpper cs = k :: ks
      rw [ih (fun k2 hk2 => hk k2 (List.mem_cons_of_mem k hk2)) hrest]
      rcases hck with rfl | rfl
      · rw [hkk.1]
      · rw [hkk.2]

theorem caseVariant_lower : ∀ {w kw : List Char},
    (∀ k ∈ kw, asciiLower (asciiLower k) = asciiLower k) →
    caseVariant w kw = true → pyLower w = pyLower kw := by
  intro w
  induction w with
  | nil =>
    intro kw hk h
    cases kw with
    | nil => rfl
    | cons k ks => simp [caseVariant] at h
  | cons c cs ih =>
    intro kw hk h
    cases kw with
    | nil => simp [caseVariant] at h
    | cons k ks =>
      simp only [caseVariant, Bool.and_eq_true, Bool.or_eq_true,
        beq_iff_eq] at h
      obtain ⟨hck, hrest⟩ := h
      have hkk := hk k (List.mem_cons_self k ks)
      show asciiLower c :: pyLower cs = asciiLower k :: pyLower ks
      rw [ih (fun k2 hk2 => hk k2 (List.mem_cons_of_mem k hk2)) hrest]
      rcases hck with rfl | rfl
      · rfl
      · rw [hkk]

theorem runner_refuses_of_contains {query klw : String}
    (hmem : klw ∈ SQLQueryRunner.WRITE_KEYWORDS)
    (hc : containsSub klw.toList (pyLower query.toList) = true) :
    ∀ ds : DataSource, ∃ e, SQLQueryRunner.execute ds query = .error e := by
  intro ds
  have hro : SQLQueryRunner._is_readonly query = false := by
    show (if ¬ listStartsWith "SELECT".toList (pyStrip (pyUpper query.toList))
          then false
          else if SQLQueryRunner.WRITE_KEYWORDS.any
              (fun keyword => containsSub keyword.toList (pyLower query.toList))
            then false else true) = false
    by_cases hs :
        listStartsWith "SELECT".toList (pyStrip (pyUpper query.toList)) = true
    · rw [if_neg (not_not_intro hs),
        if_pos (List.any_eq_true.mpr ⟨klw, hmem, hc⟩)]
    · rw [if_pos hs]
  refine ⟨"拒絕非只讀查詢: " ++ String.mk (query.toList.take 50) ++ "...", ?_⟩
  unfold SQLQueryRunner.execute
  rw [if_pos (by simp [hro])]

/-- C2: every SQL string containing one of the nine write keywords, in any
letter case at any position, fails the SQLReadOnlyCheck, and the core's own
SQLQueryRunner raises instead of executing it; the runner additionally
raises on any query that does not begin with SELECT (after upper-casing and
stripping, as the source normalises). -/
theorem c2_write_keywords_rejected :
    (∀ (sql kw : String) (w : List Char),
      kw ∈ SQLReadOnlyCheck.WRITE_KEYWORDS →
      caseVariant w kw.toList = true →
      w <:+: sql.toList →
      (SQLReadOnlyCheck.check sql).passed = false ∧
        ∀ ds : DataSource, ∃ e, SQLQueryRunner.execute ds sql = .error e) ∧
    (∀ (query : String) (ds : DataSource),
      listStartsWith "SELECT".toList (pyStrip (pyUpper query.toList)) = false →
      ∃ e, SQLQueryRunner.execute ds query = .error e) := by
  constructor
  · intro sql kw w hkw hvar hinf
    have hk1 : ∀ kw2 ∈ SQLReadOnlyCheck.WRITE_KEYWORDS, ∀ k ∈ kw2.toList,
        asciiUpper k = k ∧ asciiUpper (asciiLower k) = k := by decide
    have hk2 : ∀ kw2 ∈ SQLReadOnlyCheck.WRITE_KEYWORDS, ∀ k ∈ kw2.toList,
        asciiLower (asciiLower k) = asciiLower k := by decide
    have hklw : ∀ kw2 ∈ SQLReadOnlyCheck.WRITE_KEYWORDS,
        ∃ klw ∈ SQLQueryRunner.WRITE_KEYWORDS,
          klw.toList = pyLower kw2.toList := by decide
    have hup : pyUpper w = kw.toList := caseVariant_upper (hk1 kw hkw) hvar
    have hcont : containsSub kw.toList (pyUpper sql.toList) = true := by
      rw [← hup]
      exact IsInfix.containsSub_map asciiUpper hinf
    constructor
    · unfold SQLReadOnlyCheck.check
      cases hf : SQLReadOnlyCheck.WRITE_KEYWORDS.find?
          (fun keyword => containsSub keyword.toList (pyUpper sql.toList)) with
      | none =>
        exfalso
        have hnone := List.find?_eq_none.mp hf kw hkw
        rw [hcont] at hnone
        exact hnone rfl
      | some k0 => rfl
    · obtain ⟨klw, hmem, hkl⟩ := hklw kw hkw
      have hlow : pyLower w = pyLower kw.toList :=
        caseVariant_lower (hk2 kw hkw) hvar
      have hc : containsSub klw.toList (pyLower sql.toList) = true := by
        rw [hkl, ← hlow]
        exact IsInfix.containsSub_map asciiLower hinf
      exact runner_refuses_of_contains hmem hc
  · intro query ds hns
    have hro : SQLQueryRunner._is_readonly query = false := by
      show (if ¬ listStartsWith "SELECT".toList (pyStrip (pyUpper query.toList))
            then false
            else if SQLQueryRunner.WRITE_KEYWORDS.any
                (fun keyword => containsSub keyword.toList (pyLower query.toList))
              then false else true) = false
      rw [if_pos (by rw [hns]; simp)]
    refine ⟨"拒絕非只讀查詢: " ++ String.mk (query.toList.take 50) ++ "...", ?_⟩
    unfold SQLQueryRunner.execute
    rw [if_pos (by simp [hro])]

def sampleDataSource : DataSource := { name := "db", source_type := .SQL }

/-- C2 witness: a mixed-case DROP inside a SELECT fails the check and is
refused by the runner, and a non-SELECT query is refused by the runner. -/
theorem c2_write_keywords_rejected_witness :
    (SQLReadOnlyCheck.check "SELECT 1; dRoP TABLE users").passed = false ∧
    (∃ e, SQLQueryRunner.execute sampleDataSource "SELECT 1; dRoP TABLE users" =
      .error e) ∧
    (∃ e, SQLQueryRunner.execute sampleDataSource "WITH t AS (SELECT 1) SELECT 2" =
      .error e) := by
  have h1 := c2_write_keywords_rejected.1 "SELECT 1; dRoP TABLE users" "DROP"
    "dRoP".toList (by decide) (by decide) (by decide)
  refine ⟨h1.1, h1.2 sampleDataSource, ?_⟩
  exact c2_write_keywords_rejected.2 "WITH t AS (SELECT 1) SELECT 2"
    sampleDataSource (by decide)

/-! ## C3 -/

/-- C3: when the registered tool's declared permissions are not covered by
the context's granted permissions, `ToolExecutor.execute` returns
success=false carrying the missing-permission list, and the tool's own
`execute` is never invoked. -/
theorem c3_permission_denied (registry : String → Option ToolInterface)
    (default_timeout : Nat) (enable_sandbox : Bool) (tool_id : String)
    (context : ToolContext) (params : List (String × PyVal))
    (timeout : Option Nat) (tool : ToolInterface)
    (hreg : registry tool_id = some tool)
    (hperm : ∃ p ∈ tool.metadata.permissions, p ∉ context.permissions) :
    (ToolExecutor.execute registry default_timeout enable_sandbox tool_id
        context params timeout).result.success = false ∧
    (ToolExecutor.execute registry default_timeout enable_sandbox tool_id
        context params timeout).result.error =
      some (.permissionDenied (tool.metadata.permissions.filter
        (fun p => p ∉ context.permissions))) ∧
    (ToolExecutor.execute registry default_timeout enable_sandbox tool_id
        context params timeout).executeInvoked = false := by
  have hcp : tool.check_permission context = false := by
    unfold ToolInterface.check_permission
    cases hall : tool.metadata.permissions.all
        (fun p => p ∈ context.permissions) with
    | true =>
      exfalso
      obtain ⟨p, hp, hnp⟩ := hperm
      have := List.all_eq_true.mp hall p hp
      simp only [decide_eq_true_eq] at this
      exact hnp this
    | false => rfl
  unfold ToolExecutor.execute
  rw [hreg]
  simp [hcp]

def c3SampleMetadata : ToolMetadata :=
  { id := "sql-tool", name := "SQL Tool", description := "demo",
    category := "database",
    permissions := [.database_read, .database_write] }

def c3SampleTool : ToolInterface :=
  { metadata := c3SampleMetadata,
    validate_input := fun _ => true,
    execute := fun _ _ => .ok { success := true } }

def c3SampleRegistry : String → Option ToolInterface :=
  fun tool_id => if tool_id = "sql-tool" then some c3SampleTool else none

def c3SampleContext : ToolContext :=
  { user_id := "u1", tenant_id := "t1", mode := "local_only",
    session_id := "s1", permissions := [.database_read], request_id := "r1" }

/-- C3 witness: the sample tool needs database:write which the caller does
not hold; the call fails listing it and never reaches the tool. -/
theorem c3_permission_denied_witness :
    (ToolExecutor.execute c3SampleRegistry 30 true "sql-tool" c3SampleContext
        [] none).result.success = false ∧
    (ToolExecutor.execute c3SampleRegistry 30 true "sql-tool" c3SampleContext
        [] none).result.error =
      some (.permissionDenied [.database_write]) ∧
    (ToolExecutor.execute c3SampleRegistry 30 true "sql-tool" c3SampleContext
        [] none).executeInvoked = false := by
  have h := c3_permission_denied c3SampleRegistry 30 true "sql-tool"
    c3SampleContext [] none c3SampleTool rfl
    ⟨.database_write, by simp [c3SampleTool, c3SampleMetadata],
      by simp [c3SampleContext]⟩
  have hf : c3SampleTool.metadata.permissions.filter
      (fun p => p ∉ c3SampleContext.permissions) = [.database_write] := by
    simp [c3SampleTool, c3SampleMetadata, c3SampleContext, List.filter]
  refine ⟨h.1, ?_, h.2.2⟩
  rw [h.2.1, hf]

/-! ## C6 and C7 -/

theorem mem_runPhaseLoop_exception {Ctx : Type} (ff : Bool)
    (phase : SecurityPhase) (context : Ctx) (c : SecurityCheck Ctx)
    (e : String) (l₂ : List (SecurityCheck Ctx))
    (hphase : c.phase = phase) (hen : c.enabled = true)
    (herr : c.check context = .error e) :
    ∀ l₁ : List (SecurityCheck Ctx),
      (ff = true → ∀ d ∈ l₁, d.phase = phase → d.enabled = true →
        ∃ r, d.check context = .ok r ∧
          (r.passed = true ∨ (r.severity ≠ .CRITICAL ∧ r.severity ≠ .HIGH))) →
      exceptionResult c phase e ∈ runPhaseLoop ff phase context (l₁ ++ c :: l₂) := by
  intro l₁
  induction l₁ with
  | nil =>
    intro _
    show exceptionResult c phase e ∈ runPhaseLoop ff phase context (c :: l₂)
    unfold runPhaseLoop
    rw [if_neg (by simp [hphase, hen]), herr]
    cases ff <;> simp
  | cons d l₁ ih =>
    intro hreach
    show exceptionResult c phase e ∈
      runPhaseLoop ff phase context (d :: (l₁ ++ c :: l₂))
    unfold runPhaseLoop
    by_cases hskip : d.phase ≠ phase ∨ d.enabled = false
    · rw [if_pos hskip]
      exact ih (fun hf d2 hd2 => hreach hf d2 (List.mem_cons_of_mem d hd2))
    · rw [if_neg hskip]
      push_neg at hskip
      by_cases hff : ff = true
      · obtain ⟨r, hr, hcond⟩ := hreach hff d (List.mem_cons_self d _)
          hskip.1 (by
            cases hde : d.enabled
            · exact absurd hde hskip.2
            · rfl)
        rw [hr]
        show exceptionResult c phase e ∈
          (if ff = true ∧ r.passed = false ∧
              (r.severity = .CRITICAL ∨ r.severity = .HIGH) then [r]
           else r :: runPhaseLoop ff phase context (l₁ ++ c :: l₂))
        have hbreak : ¬(ff = true ∧ r.passed = false ∧
            (r.severity = .CRITICAL ∨ r.severity = .HIGH)) := by
          rintro ⟨-, hp, hs⟩
          rcases hcond with hpass | ⟨hs1, hs2⟩
          · rw [hpass] at hp; exact Bool.noConfusion hp
          · rcases hs with h | h
            · exact hs1 h
            · exact hs2 h
        rw [if_neg hbreak]
        exact List.mem_cons_of_mem r
          (ih (fun hf d2 hd2 => hreach hf d2 (List.mem_cons_of_mem d hd2)))
      · cases hd : d.check context with
        | ok r =>
          show exceptionResult c phase e ∈
            (if ff = true ∧ r.passed = false ∧
                (r.severity = .CRITICAL ∨ r.severity = .HIGH) then [r]
             else r :: runPhaseLoop ff phase context (l₁ ++ c :: l₂))
          rw [if_neg (by rintro ⟨hf, -⟩; exact hff hf)]
          exact List.mem_cons_of_mem r (ih (fun hf => absurd hf hff))
        | error e2 =>
          show exceptionResult c phase e ∈
            (if ff = true then [exceptionResult d phase e2]
             else exceptionResult d phase e2 ::
               runPhaseLoop ff phase context (l₁ ++ c :: l₂))
          rw [if_neg hff]
          exact List.mem_cons_of_mem _ (ih (fun hf => absurd hf hff))

/-- C6 (amended): whenever `run_phase` actually evaluates a registered,
enabled check of the phase (i.e. no earlier check of the phase already
stopped the fail-fast walk) and that check raises, the phase's result list
records a failing CheckResult with severity CRITICAL for that check_id; the
exception is converted, never propagated (`run_phase` always returns a
plain result list). -/
theorem c6_exception_recorded {Ctx : Type} (sys : LayeredSecuritySystem Ctx)
    (phase : SecurityPhase) (context : Ctx)
    (l₁ l₂ : List (SecurityCheck Ctx)) (c : SecurityCheck Ctx) (e : String)
    (hsplit : sys.checks = l₁ ++ c :: l₂)
    (hphase : c.phase = phase) (hen : c.enabled = true)
    (herr : c.check context = .error e)
    (hreach : sys.fail_fast = true →
      ∀ d ∈ l₁, d.phase = phase → d.enabled = true →
        ∃ r, d.check context = .ok r ∧
          (r.passed = true ∨ (r.severity ≠ .CRITICAL ∧ r.severity ≠ .HIGH))) :
    exceptionResult c phase e ∈ sys.run_phase phase context := by
  unfold LayeredSecuritySystem.run_phase
  rw [hsplit]
  exact mem_runPhaseLoop_exception sys.fail_fast phase context c e l₂
    hphase hen herr l₁ hreach

def secPassResult : CheckResult :=
  { check_id := "SEC-A", passed := true, message := "ok",
    severity := .CRITICAL, phase := .ENTRY }

def secFailResult : CheckResult :=
  { check_id := "SEC-F", passed := false, message := "denied",
    severity := .CRITICAL, phase := .ENTRY }

def secPassCheck : SecurityCheck Unit :=
  { check_id := "SEC-A", name := "always-pass", phase := .ENTRY,
    severity := .CRITICAL, check := fun _ => .ok secPassResult }

def secFailCheck : SecurityCheck Unit :=
  { check_id := "SEC-F", name := "always-fail", phase := .ENTRY,
    severity := .CRITICAL, check := fun _ => .ok secFailResult }

def secRaiseCheck : SecurityCheck Unit :=
  { check_id := "SEC-B", name := "always-raise", phase := .ENTRY,
    severity := .LOW, check := fun _ => .error "boom" }

def c6Sys : LayeredSecuritySystem Unit :=
  { checks := [secPassCheck, secRaiseCheck], fail_fast := true }

/-- C6 witness: in a concrete fail-fast gate whose first check passes, the
raising second check is recorded as a CRITICAL failure. -/
theorem c6_exception_recorded_witness :
    exceptionResult secRaiseCheck SecurityPhase.ENTRY "boom" ∈
      c6Sys.run_phase SecurityPhase.ENTRY () :=
  c6_exception_recorded c6Sys .ENTRY () [secPassCheck] [] secRaiseCheck
    "boom" rfl rfl rfl rfl
    (fun _ d hd _ _ => by
      simp only [List.mem_singleton] at hd
      subst hd
      exact ⟨secPassResult, rfl, Or.inl rfl⟩)

def c6BadSys : LayeredSecuritySystem Unit :=
  { checks := [secFailCheck, secRaiseCheck], fail_fast := true }

/-- C6 counterexample: if an earlier check of the phase already failed with
CRITICAL severity, the fail-fast walk stops and a later raising check is
never evaluated, so no result (CRITICAL or otherwise) is recorded for its
check_id, contrary to the claim's unconditional reading. -/
theorem c6_exception_counterexample :
    secRaiseCheck.check () = .error "boom" ∧
    c6BadSys.checks = [secFailCheck, secRaiseCheck] ∧
    ∀ r ∈ c6BadSys.run_phase SecurityPhase.ENTRY (),
      r.check_id ≠ secRaiseCheck.check_id := by
  refine ⟨rfl, rfl, ?_⟩
  intro r hr
  have hrun : c6BadSys.run_phase SecurityPhase.ENTRY () = [secFailResult] := rfl
  rw [hrun] at hr
  simp only [List.mem_singleton] at hr
  subst hr
  decide

theorem runPhaseLoop_break {Ctx : Type} (phase : SecurityPhase)
    (context : Ctx) (c : SecurityCheck Ctx) (r : CheckResult)
    (l₂ : List (SecurityCheck Ctx))
    (hphase : c.phase = phase) (hen : c.enabled = true)
    (hres : c.check context = .ok r) (hfail : r.passed = false)
    (hsev : r.severity = .CRITICAL ∨ r.severity = .HIGH) :
    ∀ l₁ : List (SecurityCheck Ctx),
      (∀ d ∈ l₁, d.phase = phase → d.enabled = true →
        ∃ r2, d.check context = .ok r2 ∧
          (r2.passed = true ∨ (r2.severity ≠ .CRITICAL ∧ r2.severity ≠ .HIGH))) →
      runPhaseLoop true phase context (l₁ ++ c :: l₂) =
        (l₁.filterMap (fun d =>
          if d.phase = phase ∧ d.enabled = true then (d.check context).toOption
          else none)) ++ [r] := by
  intro l₁
  induction l₁ with
  | nil =>
    intro _
    show runPhaseLoop true phase context (c :: l₂) = [r]
    unfold runPhaseLoop
    rw [if_neg (by simp [hphase, hen]), hres]
    show (if true = true ∧ r.passed = false ∧
        (r.severity = .CRITICAL ∨ r.severity = .HIGH) then [r]
      else r :: runPhaseLoop true phase context l₂) = [r]
    rw [if_pos ⟨rfl, hfail, hsev⟩]
  | cons d l₁ ih =>
    intro hreach
    show runPhaseLoop true phase context (d :: (l₁ ++ c :: l₂)) = _
    unfold runPhaseLoop
    by_cases hskip : d.phase ≠ phase ∨ d.enabled = false
    · rw [if_pos hskip]
      have hcnd : ¬(d.phase = phase ∧ d.enabled = true) := by
        rintro ⟨h1, h2⟩
        rcases hskip with h | h
        · exact h h1
        · rw [h2] at h; exact Bool.noConfusion h
      rw [List.filterMap_cons, if_neg hcnd]
      exact ih (fun d2 hd2 => hreach d2 (List.mem_cons_of_mem d hd2))
    · rw [if_neg hskip]
      push_neg at hskip
      have hden : d.enabled = true := by
        cases hde : d.enabled
        · exact absurd hde hskip.2
        · rfl
      obtain ⟨r2, hr2, hcond⟩ :=
        hreach d (List.mem_cons_self d _) hskip.1 hden
      rw [hr2]
      show (if true = true ∧ r2.passed = false ∧
          (r2.severity = .CRITICAL ∨ r2.severity = .HIGH) then [r2]
        else r2 :: runPhaseLoop true phase context (l₁ ++ c :: l₂)) = _
      have hbreak : ¬(true = true ∧ r2.passed = false ∧
          (r2.severity = .CRITICAL ∨ r2.severity = .HIGH)) := by
        rintro ⟨-, hp, hs⟩
        rcases hcond with hpass | ⟨hs1, hs2⟩
        · rw [hpass] at hp; exact Bool.noConfusion hp
        · rcases hs with h | h
          · exact hs1 h
          · exact hs2 h
      rw [if_neg hbreak, List.filterMap_cons, if_pos ⟨hskip.1, hden⟩, hr2]
      show r2 :: runPhaseLoop true phase context (l₁ ++ c :: l₂) =
        (r2 :: l₁.filterMap fun d2 =>
          if d2.phase = phase ∧ d2.enabled = true then
            (d2.check context).toOption else none) ++ [r]
      rw [ih (fun d2 hd2 => hreach d2 (List.mem_cons_of_mem d hd2))]
      rfl

/-- C7 (amended): in a gate configured with fail_fast = true (the default),
once an enabled check of the phase returns a failing CRITICAL or HIGH
result, `run_phase` stops: its result list is exactly the earlier checks'
results followed by that failing result, so it contains no entry for any
check registered later in the phase.  (With fail_fast = false the source
evaluates every check of the phase.) -/
theorem c7_fail_fast_stops {Ctx : Type} (sys : LayeredSecuritySystem Ctx)
    (phase : SecurityPhase) (context : Ctx)
    (l₁ l₂ : List (SecurityCheck Ctx)) (c : SecurityCheck Ctx)
    (r : CheckResult)
    (hff : sys.fail_fast = true)
    (hsplit : sys.checks = l₁ ++ c :: l₂)
    (hphase : c.phase = phase) (hen : c.enabled = true)
    (hres : c.check context = .ok r) (hfail : r.passed = false)
    (hsev : r.severity = .CRITICAL ∨ r.severity = .HIGH)
    (hreach : ∀ d ∈ l₁, d.phase = phase → d.enabled = true →
      ∃ r2, d.check context = .ok r2 ∧
        (r2.passed = true ∨ (r2.severity ≠ .CRITICAL ∧ r2.severity ≠ .HIGH))) :
    sys.run_phase phase context =
      (l₁.filterMap (fun d =>
        if d.phase = phase ∧ d.enabled = true then (d.check context).toOption
        else none)) ++ [r] := by
  unfold LayeredSecuritySystem.run_phase
  rw [hsplit, hff]
  exact runPhaseLoop_break phase context c r l₂ hphase hen hres hfail hsev
    l₁ hreach

def c7Sys : LayeredSecuritySystem Unit :=
  { checks := [secPassCheck, secFailCheck, secRaiseCheck], fail_fast := true }

/-- C7 witness: with fail-fast on, the failing CRITICAL second check cuts
the phase short; the raising third check contributes nothing. -/
theorem c7_fail_fast_stops_witness :
    c7Sys.run_phase SecurityPhase.ENTRY () = [secPassResult, secFailResult] := by
  have h := c7_fail_fast_stops c7Sys .ENTRY () [secPassCheck] [secRaiseCheck]
    secFailCheck secFailResult rfl rfl rfl rfl rfl rfl (Or.inl rfl)
    (fun d hd _ _ => by
      simp only [List.mem_singleton] at hd
      subst hd
      exact ⟨secPassResult, rfl, Or.inl rfl⟩)
  exact h.trans (by decide)

def c7NoFFSys : LayeredSecuritySystem Unit :=
  { checks := [secFailCheck, secPassCheck], fail_fast := false }

/-- C7 counterexample: with fail_fast = false the gate evaluates the later
check even after an earlier failing CRITICAL result, so the claim does not
hold of every gate: the result list has an entry for the later check. -/
theorem c7_fail_fast_counterexample :
    c7NoFFSys.run_phase SecurityPhase.ENTRY () =
      [secFailResult, secPassResult] ∧
    secFailResult.passed = false ∧
    secFailResult.severity = Severity.CRITICAL ∧
    secPassResult.check_id = secPassCheck.check_id := by
  refine ⟨rfl, ?_, ?_, ?_⟩ <;> decide

/-! ## C9 -/

theorem le_foldl_max (x : ℚ) (l : List ℚ) : x ≤ l.foldl max x := by
  induction l generalizing x with
  | nil => exact le_refl x
  | cons y ys ih => exact le_trans (le_max_left x y) (ih (max x y))

theorem mem_le_foldl_max (x : ℚ) (l : List ℚ) :
    ∀ y ∈ l, y ≤ l.foldl max x := by
  induction l generalizing x with
  | nil => intro y hy; exact absurd hy (List.not_mem_nil y)
  | cons z zs ih =>
    intro y hy
    rcases List.mem_cons.mp hy with rfl | hy2
    · exact le_trans (le_max_right x y) (le_foldl_max _ zs)
    · exact ih (max x z) y hy2

theorem foldl_max_mem (x : ℚ) (l : List ℚ) :
    l.foldl max x = x ∨ l.foldl max x ∈ l := by
  induction l generalizing x with
  | nil => left; rfl
  | cons y ys ih =>
    rcases ih (max x y) with h | h
    · rcases max_choice x y with hm | hm
      · left
        show List.foldl max (max x y) ys = x
        rw [h, hm]
      · right
        show List.foldl max (max x y) ys ∈ y :: ys
        rw [h, hm]
        exact List.mem_cons_self y ys
    · right
      exact List.mem_cons_of_mem y h

theorem rawScore_unit (matched : List SensitivityRule)
    (hr : ∀ r ∈ matched, 0 ≤ r.score ∧ r.score ≤ 1) :
    0 ≤ SensitivityAnalyzer.rawScore matched ∧
      SensitivityAnalyzer.rawScore matched ≤ 1 := by
  cases matched with
  | nil => exact ⟨by norm_num [SensitivityAnalyzer.rawScore],
      by norm_num [SensitivityAnalyzer.rawScore]⟩
  | cons m ms =>
    have hbase_lb : 0 ≤ (ms.map SensitivityRule.score).foldl max m.score :=
      le_trans (hr m (List.mem_cons_self m ms)).1 (le_foldl_max _ _)
    have hbonus_lb : 0 ≤ min (((m :: ms).length : ℚ) * (5/100)) (15/100) := by
      apply le_min
      · positivity
      · norm_num
    exact ⟨le_min (add_nonneg hbase_lb hbonus_lb) (by norm_num),
      min_le_right _ _⟩

theorem mem_unit_min_one {x : ℚ} (hx : 0 ≤ x) : 0 ≤ min x 1 ∧ min x 1 ≤ 1 :=
  ⟨le_min hx (by norm_num), min_le_right _ _⟩

theorem mem_unit_ite {c : Prop} [Decidable c] {a b : ℚ}
    (ha : 0 ≤ a ∧ a ≤ 1) (hb : 0 ≤ b ∧ b ≤ 1) :
    0 ≤ (if c then a else b) ∧ (if c then a else b) ≤ 1 := by
  split_ifs
  exacts [ha, hb]

theorem adjust_by_context_unit {s : ℚ} (ctx : SContext) (h0 : 0 ≤ s)
    (h1 : s ≤ 1) :
    0 ≤ SensitivityAnalyzer.adjust_by_context s ctx ∧
      SensitivityAnalyzer.adjust_by_context s ctx ≤ 1 := by
  have hA := mem_unit_ite (c := ctx.user_marked_sensitive = true)
    ⟨le_trans h0 (le_max_left s (9/10)), max_le h1 (by norm_num)⟩ ⟨h0, h1⟩
  have hm1 : (0:ℚ) ≤
      (if ctx.user_marked_sensitive = true then max s (9/10) else s) *
        (11/10) :=
    mul_nonneg hA.1 (by norm_num)
  have hB := mem_unit_ite (c := ctx.is_admin = true)
    (mem_unit_min_one hm1) hA
  have hm2 : (0:ℚ) ≤
      (if ctx.is_admin = true then
        min ((if ctx.user_marked_sensitive = true then max s (9/10) else s) *
          (11/10)) 1
       else (if ctx.user_marked_sensitive = true then max s (9/10) else s)) *
        (115/100) :=
    mul_nonneg hB.1 (by norm_num)
  have hC := mem_unit_ite (c := ctx.environment = some "production")
    (mem_unit_min_one hm2) hB
  exact hC

/-- C9: whenever every sensitivity rule's score lies in [0,1], the score
`analyze` returns lies in [0,1]; the pre-adjustment base score is 0.1 when
no rule matches, and otherwise equals min(1, max matched score +
min(0.05 × matched count, 0.15)). -/
theorem c9_score_bounds (reSearch : String → String → Bool)
    (rules : List SensitivityRule) (content : String)
    (context : Option SContext)
    (hr : ∀ r ∈ rules, 0 ≤ r.score ∧ r.score ≤ 1) :
    (0 ≤ (SensitivityAnalyzer.analyze reSearch rules content context).score ∧
      (SensitivityAnalyzer.analyze reSearch rules content context).score ≤ 1) ∧
    (rules.filter (SensitivityAnalyzer.matches reSearch content) = [] →
      SensitivityAnalyzer.rawScore
        (rules.filter (SensitivityAnalyzer.matches reSearch content)) =
        1/10) ∧
    (∀ m ms,
      rules.filter (SensitivityAnalyzer.matches reSearch content) = m :: ms →
      ∃ b, b ∈ (m :: ms).map SensitivityRule.score ∧
        (∀ s ∈ (m :: ms).map SensitivityRule.score, s ≤ b) ∧
        SensitivityAnalyzer.rawScore (m :: ms) =
          min (b + min (((m :: ms).length : ℚ) * (5/100)) (15/100)) 1) := by
  have hraw := rawScore_unit
    (rules.filter (SensitivityAnalyzer.matches reSearch content))
    (fun r hrf => hr r (List.mem_of_mem_filter hrf))
  have hadj :
      0 ≤ (match context with
        | some ctx => SensitivityAnalyzer.adjust_by_context
            (SensitivityAnalyzer.rawScore
              (rules.filter (SensitivityAnalyzer.matches reSearch content)))
            ctx
        | none => SensitivityAnalyzer.rawScore
            (rules.filter (SensitivityAnalyzer.matches reSearch content))) ∧
      (match context with
        | some ctx => SensitivityAnalyzer.adjust_by_context
            (SensitivityAnalyzer.rawScore
              (rules.filter (SensitivityAnalyzer.matches reSearch content)))
            ctx
        | none => SensitivityAnalyzer.rawScore
            (rules.filter (SensitivityAnalyzer.matches reSearch content))) ≤
        1 := by
    cases context with
    | none => exact hraw
    | some ctx => exact adjust_by_context_unit ctx hraw.1 hraw.2
  refine ⟨⟨pyRound2_nonneg hadj.1, pyRound2_le_one hadj.2⟩, ?_, ?_⟩
  · intro h
    rw [h]
    rfl
  · intro m ms hfilter
    refine ⟨(ms.map SensitivityRule.score).foldl max m.score, ?_, ?_, rfl⟩
    · rcases foldl_max_mem m.score (ms.map SensitivityRule.score) with h | h
      · rw [h]
        exact List.mem_cons_self _ _
      · exact List.mem_cons_of_mem _ h
    · intro s hs
      rcases List.mem_cons.mp hs with rfl | hs2
      · exact le_foldl_max _ _
      · exact mem_le_foldl_max _ _ s hs2

theorem defaultRulesFilterFalse_eq_nil :
    SensitivityAnalyzer.DEFAULT_RULES.filter
      (SensitivityAnalyzer.matches (fun _ _ => false) "hello") = [] := by
  simp [SensitivityAnalyzer.matches, SensitivityAnalyzer.DEFAULT_RULES]

theorem defaultRulesScores_unit :
    ∀ r ∈ SensitivityAnalyzer.DEFAULT_RULES, 0 ≤ r.score ∧ r.score ≤ 1 := by
  simp only [SensitivityAnalyzer.DEFAULT_RULES, List.forall_mem_cons,
    List.not_mem_nil, false_implies, forall_const, List.forall_mem_nil]
  norm_num

/-- C9 witness: with no matching rule the default-rule analyzer returns a
score of exactly 0.1, inside [0,1]. -/
theorem c9_score_bounds_witness :
    (0 ≤ (SensitivityAnalyzer.analyze (fun _ _ => false)
        SensitivityAnalyzer.DEFAULT_RULES "hello" none).score ∧
      (SensitivityAnalyzer.analyze (fun _ _ => false)
        SensitivityAnalyzer.DEFAULT_RULES "hello" none).score ≤ 1) ∧
    SensitivityAnalyzer.rawScore
      (SensitivityAnalyzer.DEFAULT_RULES.filter
        (SensitivityAnalyzer.matches (fun _ _ => false) "hello")) = 1/10 := by
  have h := c9_score_bounds (fun _ _ => false)
    SensitivityAnalyzer.DEFAULT_RULES "hello" none defaultRulesScores_unit
  exact ⟨h.1, h.2.1 defaultRulesFilterFalse_eq_nil⟩

/-! ## C5 -/

theorem firstHook_none {hooks : List (HookInput → Option ModeDecision)}
    {inp : HookInput} (h : ∀ hook ∈ hooks, hook inp = none) :
    firstHook hooks inp = none := by
  induction hooks with
  | nil => rfl
  | cons hk hks ih =>
    unfold firstHook
    rw [h hk (List.mem_cons_self hk hks)]
    exact ih (fun hk2 hh => h hk2 (List.mem_cons_of_mem hk hh))

/-- C5: when no override is registered and no custom hook returns a
decision, `decide` follows the threshold rule on the analyzed score s:
s ≥ local_threshold gives LOCAL_ONLY with confidence 0.95 and
requires_confirmation; s ≤ cloud_threshold gives CLOUD_SANDBOX with
confidence 0.85 and no confirmation; anything strictly between gives
HYBRID with confidence 0.8 and requires_confirmation iff s > 0.5.
(The thresholds are configuration; the rule as claimed presumes the sane
configuration cloud_threshold < local_threshold, as the defaults 0.3 < 0.8
satisfy.) -/
theorem c5_threshold_rule (eng : DynamicModeEngine)
    (reSearch : String → String → Bool) (pyHash : String → Int)
    (content : String) (user_id : Option String) (context : Option SContext)
    (hov : eng.user_overrides = [])
    (hth : eng.cloud_threshold < eng.local_threshold)
    (hhk : ∀ hook ∈ eng.decision_hooks,
      hook { content := content,
             score := (SensitivityAnalyzer.analyze reSearch
               SensitivityAnalyzer.DEFAULT_RULES content context).score,
             analysis := SensitivityAnalyzer.analyze reSearch
               SensitivityAnalyzer.DEFAULT_RULES content context,
             context := context } = none) :
    ((SensitivityAnalyzer.analyze reSearch SensitivityAnalyzer.DEFAULT_RULES
        content context).score ≥ eng.local_threshold →
      (eng.decide reSearch pyHash content user_id context).mode =
          ExecutionMode.LOCAL_ONLY ∧
        (eng.decide reSearch pyHash content user_id context).confidence =
          95/100 ∧
        (eng.decide reSearch pyHash content user_id
            context).requires_confirmation = true ∧
        (eng.decide reSearch pyHash content user_id
            context).sensitivity_score =
          (SensitivityAnalyzer.analyze reSearch
            SensitivityAnalyzer.DEFAULT_RULES content context).score) ∧
    ((SensitivityAnalyzer.analyze reSearch SensitivityAnalyzer.DEFAULT_RULES
        content context).score ≤ eng.cloud_threshold →
      (eng.decide reSearch pyHash content user_id context).mode =
          ExecutionMode.CLOUD_SANDBOX ∧
        (eng.decide reSearch pyHash content user_id context).confidence =
          85/100 ∧
        (eng.decide reSearch pyHash content user_id
            context).requires_confirmation = false ∧
        (eng.decide reSearch pyHash content user_id
            context).sensitivity_score =
          (SensitivityAnalyzer.analyze reSearch
            SensitivityAnalyzer.DEFAULT_RULES content context).score) ∧
    (eng.cloud_threshold <
        (SensitivityAnalyzer.analyze reSearch SensitivityAnalyzer.DEFAULT_RULES
          content context).score →
      (SensitivityAnalyzer.analyze reSearch SensitivityAnalyzer.DEFAULT_RULES
          content context).score < eng.local_threshold →
      (eng.decide reSearch pyHash content user_id context).mode =
          ExecutionMode.HYBRID ∧
        (eng.decide reSearch pyHash content user_id context).confidence =
          8/10 ∧
        ((eng.decide reSearch pyHash content user_id
            context).requires_confirmation = true ↔
          (SensitivityAnalyzer.analyze reSearch
            SensitivityAnalyzer.DEFAULT_RULES content context).score > 1/2) ∧
        (eng.decide reSearch pyHash content user_id
            context).sensitivity_score =
          (SensitivityAnalyzer.analyze reSearch
            SensitivityAnalyzer.DEFAULT_RULES content context).score) := by
  have hco : eng._check_override pyHash content user_id = none := by
    unfold DynamicModeEngine._check_override
    rw [hov]
    cases user_id <;> simp [lookupOverride]
  have hd : eng.decide reSearch pyHash content user_id context =
      eng._make_decision
        (SensitivityAnalyzer.analyze reSearch SensitivityAnalyzer.DEFAULT_RULES
          content context).score
        (SensitivityAnalyzer.analyze reSearch SensitivityAnalyzer.DEFAULT_RULES
          content context) context := by
    unfold DynamicModeEngine.decide
    rw [hco]
    show (match firstHook eng.decision_hooks
        { content := content,
          score := (SensitivityAnalyzer.analyze reSearch
            SensitivityAnalyzer.DEFAULT_RULES content context).score,
          analysis := SensitivityAnalyzer.analyze reSearch
            SensitivityAnalyzer.DEFAULT_RULES content context,
          context := context } with
      | some d => d
      | none => eng._make_decision
          (SensitivityAnalyzer.analyze reSearch
            SensitivityAnalyzer.DEFAULT_RULES content context).score
          (SensitivityAnalyzer.analyze reSearch
            SensitivityAnalyzer.DEFAULT_RULES content context) context) = _
    rw [firstHook_none hhk]
  refine ⟨fun hge => ?_, fun hle => ?_, fun hgt hlt => ?_⟩
  · rw [hd]
    unfold DynamicModeEngine._make_decision
    rw [if_pos hge]
    exact ⟨rfl, rfl, rfl, rfl⟩
  · rw [hd]
    unfold DynamicModeEngine._make_decision
    rw [if_neg (not_le.mpr (lt_of_le_of_lt hle hth)), if_pos hle]
    exact ⟨rfl, rfl, rfl, rfl⟩
  · rw [hd]
    unfold DynamicModeEngine._make_decision
    rw [if_neg (not_le.mpr hlt), if_neg (not_le.mpr hgt)]
    refine ⟨rfl, rfl, ?_, rfl⟩
    simp only [decide_eq_true_eq]

theorem rneInt_intCast (n : ℤ) : rneInt (n : ℚ) = n := by
  unfold rneInt
  rw [Int.floor_intCast]
  rw [if_pos]
  show (n : ℚ) - n < 1/2
  norm_num

theorem pyRound2_tenth : pyRound2 (1/10) = 1/10 := by
  unfold pyRound2
  have h10 : ((1:ℚ)/10 * 100) = ((10:ℤ) : ℚ) := by norm_num
  rw [h10, rneInt_intCast]
  norm_num

theorem analyzeNoMatch_score :
    (SensitivityAnalyzer.analyze (fun _ _ => false)
      SensitivityAnalyzer.DEFAULT_RULES "hello" none).score = 1/10 := by
  show pyRound2 (SensitivityAnalyzer.rawScore
    (SensitivityAnalyzer.DEFAULT_RULES.filter
      (SensitivityAnalyzer.matches (fun _ _ => false) "hello"))) = 1/10
  rw [defaultRulesFilterFalse_eq_nil]
  exact pyRound2_tenth

/-- C5 witness: the default engine on an innocuous input scores 0.1 ≤ 0.3
and routes to CLOUD_SANDBOX with confidence 0.85 and no confirmation. -/
theorem c5_threshold_rule_witness :
    (DynamicModeEngine.decide {} (fun _ _ => false) (fun _ => 0) "hello"
        none none).mode = ExecutionMode.CLOUD_SANDBOX ∧
    (DynamicModeEngine.decide {} (fun _ _ => false) (fun _ => 0) "hello"
        none none).confidence = 85/100 ∧
    (DynamicModeEngine.decide {} (fun _ _ => false) (fun _ => 0) "hello"
        none none).requires_confirmation = false := by
  have h := c5_threshold_rule {} (fun _ _ => false) (fun _ => 0) "hello"
    none none rfl (by show (3:ℚ)/10 < 8/10; norm_num)
    (fun hook hh => absurd hh (List.not_mem_nil hook))
  have hs : (SensitivityAnalyzer.analyze (fun _ _ => false)
      SensitivityAnalyzer.DEFAULT_RULES "hello" none).score ≤
      ({} : DynamicModeEngine).cloud_threshold := by
    rw [analyzeNoMatch_score]
    show (1:ℚ)/10 ≤ 3/10
    norm_num
  obtain ⟨h1, h2, h3, -⟩ := h.2.1 hs
  exact ⟨h1, h2, h3⟩

/-! ## C8 -/

theorem overwriteLoop_id (ow : ZeroHallucinationOverwriter)
    (context : Option (List (String × PyVal))) :
    ∀ (ps : List (String × String)) (acc : String),
      (∀ p ∈ ps, (ow._overwrite_single context p.1 p.2).success = false ∧
        (∀ rule, lookupStr ow.rules p.1 = some rule →
          rule.fallback_value = none)) →
      (overwriteLoop ow context ps acc).2 = acc := by
  intro ps
  induction ps with
  | nil => intro acc _; rfl
  | cons p rest ih =>
    obtain ⟨ph, k⟩ := p
    intro acc hall
    have hp := hall (ph, k) (List.mem_cons_self _ _)
    have hrest := fun q hq => hall q (List.mem_cons_of_mem _ hq)
    have hstep : overwriteStep ow acc ph
        (ow._overwrite_single context ph k) = acc := by
      unfold overwriteStep
      rw [if_neg (by rw [hp.1]; exact Bool.noConfusion)]
      cases hrule : lookupStr ow.rules ph with
      | none => rfl
      | some rule =>
        have hfb := hp.2 rule hrule
        simp only [hfb]
    show (overwriteLoop ow context rest
      (overwriteStep ow acc ph (ow._overwrite_single context ph k))).2 = acc
    rw [hstep]
    exact ih acc hrest

/-- C8 (amended): for a placeholder whose resolution fails during
`overwrite`: (a) when the failure happens inside the query/validation step
and the rule declares a non-null fallback, the result counts success=true
with the fallback value and the fallback is substituted; (b) when the
rule's data source is unregistered, the result is success=false yet the
fallback (when declared) is still substituted into the output, and with no
fallback the output is untouched; (c) a rule failure with no fallback, or
no rule and no same-named context key, gives success=false and performs no
substitution for that placeholder — in particular a template all of whose
placeholders fail without fallback comes back unchanged. -/
theorem c8_fallback_semantics (ow : ZeroHallucinationOverwriter)
    (context : Option (List (String × PyVal))) (placeholder key : String)
    (acc : String) :
    (∀ rule data_source e fb,
      lookupStr ow.rules placeholder = some rule →
      lookupStr ow.data_sources rule.data_source = some data_source →
      tryResolveQuery ow rule data_source context = .error e →
      rule.fallback_value = some fb →
      (ow._overwrite_single context placeholder key).success = true ∧
      (ow._overwrite_single context placeholder key).final_value = some fb ∧
      overwriteStep ow acc placeholder
          (ow._overwrite_single context placeholder key) =
        String.mk (pyReplace acc.toList placeholder.toList
          (pyStr fb).toList)) ∧
    (∀ rule data_source e,
      lookupStr ow.rules placeholder = some rule →
      lookupStr ow.data_sources rule.data_source = some data_source →
      tryResolveQuery ow rule data_source context = .error e →
      rule.fallback_value = none →
      (ow._overwrite_single context placeholder key).success = false ∧
      overwriteStep ow acc placeholder
          (ow._overwrite_single context placeholder key) = acc) ∧
    (∀ rule,
      lookupStr ow.rules placeholder = some rule →
      lookupStr ow.data_sources rule.data_source = none →
      (ow._overwrite_single context placeholder key).success = false ∧
      (∀ fb, rule.fallback_value = some fb →
        overwriteStep ow acc placeholder
            (ow._overwrite_single context placeholder key) =
          String.mk (pyReplace acc.toList placeholder.toList
            (pyStr fb).toList)) ∧
      (rule.fallback_value = none →
        overwriteStep ow acc placeholder
            (ow._overwrite_single context placeholder key) = acc)) ∧
    (lookupStr ow.rules placeholder = none →
      (match context with
        | some ctx => lookupStr ctx key
        | none => none) = none →
      (ow._overwrite_single context placeholder key).success = false ∧
      overwriteStep ow acc placeholder
          (ow._overwrite_single context placeholder key) = acc) ∧
    (∀ template : String,
      (∀ p ∈ parsePlaceholders template,
        (ow._overwrite_single context p.1 p.2).success = false ∧
        (∀ rule, lookupStr ow.rules p.1 = some rule →
          rule.fallback_value = none)) →
      (ow.overwrite template context).final_output = template) := by
  refine ⟨?_, ?_, ?_, ?_, ?_⟩
  · intro rule data_source e fb hrule hds htry hfb
    have hsingle : ow._overwrite_single context placeholder key =
        { success := true, placeholder := placeholder,
          original_value := placeholder, final_value := some fb,
          data_source := rule.data_source } := by
      simp only [ZeroHallucinationOverwriter._overwrite_single, hrule, hds,
        htry, hfb]
    refine ⟨by rw [hsingle], by rw [hsingle], ?_⟩
    rw [hsingle]
    rfl
  · intro rule data_source e hrule hds htry hfb
    have hsingle : ow._overwrite_single context placeholder key =
        { success := false, placeholder := placeholder,
          original_value := placeholder, final_value := none,
          data_source := rule.data_source, error := some e } := by
      simp only [ZeroHallucinationOverwriter._overwrite_single, hrule, hds,
        htry, hfb]
    refine ⟨by rw [hsingle], ?_⟩
    rw [hsingle]
    unfold overwriteStep
    rw [if_neg Bool.noConfusion]
    simp only [hrule, hfb]
  · intro rule hrule hds
    have hsingle : ow._overwrite_single context placeholder key =
        { success := false, placeholder := placeholder,
          original_value := placeholder, final_value := none,
          data_source := rule.data_source,
          error := some ("數據源 '" ++ rule.data_source ++ "' 未註冊") } := by
      simp only [ZeroHallucinationOverwriter._overwrite_single, hrule, hds]
    refine ⟨by rw [hsingle], ?_, ?_⟩
    · intro fb hfb
      rw [hsingle]
      unfold overwriteStep
      rw [if_neg Bool.noConfusion]
      simp only [hrule, hfb]
    · intro hfb
      rw [hsingle]
      unfold overwriteStep
      rw [if_neg Bool.noConfusion]
      simp only [hrule, hfb]
  · intro hrule hctx
    have hsingle : ow._overwrite_single context placeholder key =
        { success := false, placeholder := placeholder,
          original_value := placeholder, final_value := none,
          data_source := "unknown",
          error := some ("未找到佔位符 '" ++ placeholder ++ "' 的覆寫規則") } := by
      simp only [ZeroHallucinationOverwriter._overwrite_single, hrule, hctx]
    refine ⟨by rw [hsingle], ?_⟩
    rw [hsingle]
    unfold overwriteStep
    rw [if_neg Bool.noConfusion]
    simp only [hrule]
  · intro template hall
    unfold ZeroHallucinationOverwriter.overwrite
    cases hp : parsePlaceholders template with
    | nil => rfl
    | cons p ps =>
      show (overwriteLoop ow context (p :: ps) template).2 = template
      rw [hp] at hall
      exact overwriteLoop_id ow context (p :: ps) template hall

def c8Rule : OverwriteRule :=
  { placeholder := "\x7b\x7bx\x7d\x7d", data_source := "nope",
    query_template := "q", fallback_value := some (.vStr "FB") }

def c8Ow : ZeroHallucinationOverwriter :=
  { rules := [("\x7b\x7bx\x7d\x7d", c8Rule)], data_sources := [],
    query_runners := defaultRunners }

/-- C8 counterexample: a rule with a declared fallback whose data source is
unregistered: resolution fails, the fallback IS substituted into
final_output, yet the placeholder's OverwriteResult has success=false —
contradicting the claim that a declared fallback makes the result
success=true. -/
theorem c8_fallback_counterexample :
    ((c8Ow.overwrite "\x7b\x7bx\x7d\x7d" none).results.getD 0
      { success := true, placeholder := "", original_value := "",
        final_value := none, data_source := "" }).success = false ∧
    (c8Ow.overwrite "\x7b\x7bx\x7d\x7d" none).final_output = "FB" ∧
    c8Rule.fallback_value = some (.vStr "FB") := by
  decide

def c8EmptyOw : ZeroHallucinationOverwriter :=
  { query_runners := defaultRunners }

/-- C8 witness: with no rule and no matching context key, the result is a
failure and the output is left untouched. -/
theorem c8_fallback_semantics_witness :
    (c8EmptyOw._overwrite_single none "\x7b\x7by\x7d\x7d" "y").success =
      false ∧
    overwriteStep c8EmptyOw "out" "\x7b\x7by\x7d\x7d"
      (c8EmptyOw._overwrite_single none "\x7b\x7by\x7d\x7d" "y") = "out" :=
  (c8_fallback_semantics c8EmptyOw none "\x7b\x7by\x7d\x7d" "y"
    "out").2.2.2.1 rfl rfl
